import Mathlib

/-!
Verification development for the bc-tracker repository (src/bc_tracker.py).

The Python source is shallowly embedded:
* `score_sentiment` (source lines 175-223) over exact rationals instead of
  IEEE doubles (only additions of 1.0 / 1.5 and one division occur, so the
  real-number semantics is the intended one);
* the regular-expression tables `CONTRACEPTIVES` and `SIDE_EFFECTS`
  (source lines 80-143) as alternative lists for a small word-boundary
  matcher, each alternative transcribed from one branch of the Python
  pattern (finite character classes and optional groups are expanded into
  separate alternatives, which preserves the existence of a match, the only
  thing `re.search` is asked for);
* the SQLite layer (tables `posts`, `mentions`, `side_effects`, `comments`,
  `scrape_runs`) as lists of rows inside a `Conn` structure that also
  carries the connection state `sqlite3_last_insert_rowid`, with the
  write paths `save_posts_to_db`, `save_comments_to_db`,
  `backfill_sentiment_and_effects` and the read paths
  `query_mention_counts`, `query_daily_counts`, `query_sentiment_by_type`,
  `query_side_effect_counts` translated statement by statement;
* `compute_engagement` (source lines 513-515) over the reals with
  `Real.logb 2` in place of the floating `math.log2`.  Because exact
  base-two logarithms are not computable, the store model is generic in the
  type `E` of the `engagement_score` column and in the function `engFn`
  that the source fixes to `compute_engagement`; instantiating
  `E := Real, engFn := compute_engagement` gives the source semantics,
  instantiating `E := Rat` keeps the model executable for concrete runs
  (the engagement value never influences which rows or keys are written).

Timestamps (`created_utc`, SQLite REAL) are modelled as integers: every
claim about them concerns only order and equality.  Character classes
(word characters for the regex `b` assertion, whitespace for `s`) follow
the ASCII reading; the patterns themselves are pure ASCII.
-/

namespace BcTracker

/-! ## Sentiment lexicons (source lines 149-172) -/

/-- `_POSITIVE_WORDS`, source lines 149-157. -/
def _POSITIVE_WORDS : List String :=
  ["love", "loved", "loving", "great", "amazing", "wonderful", "fantastic",
   "happy", "happier", "recommend", "recommended", "perfect", "relief",
   "comfortable", "easy", "easier", "helped", "helping", "works", "worked",
   "effective", "glad", "satisfied", "awesome", "excellent", "best", "better",
   "worth", "grateful", "thankful", "thrilled", "pleased", "enjoy", "enjoying",
   "improvement", "improved", "freedom", "convenient", "reliable", "safe",
   "success", "successful", "smooth", "positive", "hopeful", "reassuring"]

/-- `_NEGATIVE_WORDS`, source lines 159-169 (the Python set literal lists
"suffering" twice; the duplicate is kept, membership is unaffected). -/
def _NEGATIVE_WORDS : List String :=
  ["hate", "hated", "hating", "terrible", "awful", "horrible", "worst",
   "pain", "painful", "suffering", "miserable", "nightmare", "regret",
   "regretted", "angry", "frustrated", "frustrating", "unbearable",
   "ruined", "scared", "scary", "fear", "worried", "worry", "worrying",
   "concerned", "bad", "worse", "sucks", "sucked", "annoying", "annoyed",
   "disappointing", "disappointed", "uncomfortable", "difficult", "hard",
   "struggle", "struggling", "failed", "failure", "problem", "problems",
   "issue", "issues", "wrong", "severe", "seriously", "misery", "cry",
   "crying", "cried", "upset", "distressed", "suffering", "hurt", "hurts"]

/-- `_INTENSIFIERS`, source line 171. -/
def _INTENSIFIERS : List String :=
  ["very", "really", "extremely", "so", "incredibly", "super", "absolutely", "totally"]

/-- `_NEGATORS`, source line 172. -/
def _NEGATORS : List String :=
  ["not", "no", "never", "don't", "didn't", "doesn't", "wasn't", "weren't",
   "isn't", "aren't", "won't", "can't", "couldn't", "shouldn't", "hardly", "barely"]

/-! ## Tokenisation: `re.findall(r"[a-z']+", text.lower())` -/

/-- ASCII lowercasing, the effective part of Python `str.lower` here (the
token class `[a-z']` keeps only ASCII letters and apostrophes anyway). -/
def lowerChar (c : Char) : Char :=
  if 'A' ≤ c ∧ c ≤ 'Z' then Char.ofNat (c.toNat + 32) else c

/-- A character of the token class `[a-z']` (after lowercasing). -/
def isTokChar (c : Char) : Bool :=
  ('a' ≤ c && c ≤ 'z') || c == '\''

/-- Maximal runs of token characters, i.e. `re.findall(r"[a-z']+", ·)`. -/
def tokenRuns : List Char → List (List Char)
  | [] => []
  | c :: cs =>
    let rest := tokenRuns cs
    if isTokChar c then
      match cs, rest with
      | c' :: _, t :: ts => if isTokChar c' then (c :: t) :: ts else [c] :: rest
      | _, _ => [c] :: rest
    else rest

/-- `re.findall(r"[a-z']+", text.lower())` as a list of words. -/
def tokenize (text : String) : List String :=
  (tokenRuns (text.data.map lowerChar)).map List.asString

/-! ## `score_sentiment`, source lines 175-223 -/

/-- The loop state of `score_sentiment`: the two tallies, the negate flag
and the intensity multiplier (`pos_score`, `neg_score`, `negate`,
`intensify` in the source). -/
structure SentState where
  pos : ℚ
  neg : ℚ
  negate : Bool
  intensify : ℚ
  deriving DecidableEq, Repr

/-- One iteration of the `for word in words` loop, source lines 191-217.
The source's final `else` branch re-tests membership in the intensifier
and negator sets, but both tests are vacuously true there because those
branches already ended with `continue`; the branch is the plain reset. -/
def sentStep (st : SentState) (w : String) : SentState :=
  if _NEGATORS.contains w then { st with negate := true }
  else if _INTENSIFIERS.contains w then { st with intensify := 3/2 }
  else if _POSITIVE_WORDS.contains w then
    if st.negate then { st with neg := st.neg + st.intensify, negate := false, intensify := 1 }
    else { st with pos := st.pos + st.intensify, negate := false, intensify := 1 }
  else if _NEGATIVE_WORDS.contains w then
    if st.negate then { st with pos := st.pos + st.intensify, negate := false, intensify := 1 }
    else { st with neg := st.neg + st.intensify, negate := false, intensify := 1 }
  else { st with negate := false, intensify := 1 }

/-- Initial state: `pos_score = 0.0, neg_score = 0.0, negate = False,
intensify = 1.0` (source lines 186-189). -/
def sentInit : SentState := ⟨0, 0, false, 1⟩

/-- `score_sentiment`, source lines 175-223.  The two early returns of the
source (`if not text` and `if not words`) both fire exactly when the token
list is empty, so they are one test here.  Scores are exact rationals. -/
def score_sentiment (text : String) : Option ℚ :=
  let words := tokenize text
  if words = [] then none
  else
    let st := words.foldl sentStep sentInit
    let total := st.pos + st.neg
    if total = 0 then none
    else some (max (-1) (min 1 ((st.pos - st.neg) / total)))

/-! ## `compute_engagement`, source lines 513-515

`math.log2(max(score, 1)) + math.log2(max(num_comments, 1)) * 1.5` with the
floating `log2` read as the real base-two logarithm. -/

noncomputable def compute_engagement (score num_comments : ℤ) : ℝ :=
  Real.logb 2 ((max score 1 : ℤ) : ℝ) + Real.logb 2 ((max num_comments 1 : ℤ) : ℝ) * 1.5

/-! ## Word-boundary pattern matcher

The patterns of `CONTRACEPTIVES` and `SIDE_EFFECTS` use a small regex
vocabulary: literal ASCII words, the classes `s` (whitespace) and `w`
(word characters) starred or plussed, `[s-]` runs, the `b` word-boundary
assertion, alternation, finite optional groups, and two shapes of negative
lookahead.  Each top-level alternative of a pattern is transcribed as an
`Alt`: a `b`-anchored piece sequence, a flag for a trailing `b`, and an
optional lookahead.  Finite classes such as `[ei]` and optional groups
such as `(?:s|ing)?` are expanded into separate alternatives; an optional
group standing last after the trailing `b` (only `(?:\s+pill)?` of the
`pop` branch) is dropped, since the prefix alone already witnesses a
match.  Matching is case-insensitive in the source (`re.IGNORECASE`);
here the text is lowercased once and the patterns are stored lowercase. -/

/-- Python `\s` (ASCII part): space, tab, newline, carriage return,
form feed, vertical tab. -/
def isWsChar (c : Char) : Bool :=
  c == ' ' || c == '\t' || c == '\n' || c == '\r' || c == '\x0b' || c == '\x0c'

/-- A character of the class `[\s-]`. -/
def isWshChar (c : Char) : Bool :=
  isWsChar c || c == '-'

/-- Python `\w` (ASCII part): letters, digits, underscore. -/
def isWordChar (c : Char) : Bool :=
  c.isAlphanum || c == '_'

/-- Length of the maximal prefix run of characters satisfying `p`. -/
def runLen (p : Char → Bool) : List Char → Nat
  | [] => 0
  | c :: cs => if p c then runLen p cs + 1 else 0

/-- First index at or after `i` where a character failing `p` stands
(or the end of the text). -/
def runEnd (p : Char → Bool) (t : List Char) (i : Nat) : Nat :=
  i + runLen p (t.drop i)

/-- The literal `s` occurs at index `i` of `t`. -/
def litAt (s : List Char) (t : List Char) (i : Nat) : Bool :=
  s.isPrefixOf (t.drop i)

/-- `t` has a word character at index `i` (out of range: no). -/
def isWordIdx (t : List Char) (i : Nat) : Bool :=
  match t.get? i with
  | some c => isWordChar c
  | none => false

/-- The regex `b` assertion at index `i`: exactly one of the character
before `i` and the character at `i` is a word character. -/
def wordBoundaryAt (t : List Char) (i : Nat) : Bool :=
  (if i = 0 then false else isWordIdx t (i - 1)) != isWordIdx t i

/-- One deterministic component of an alternative.  `ws1/ws0` are `\s+` and
`\s*`, `wsh1/wsh0` are `[\s-]+` and `[\s-]*`, `wd1` is `\w+`.  In every
pattern of the source a run component is followed by a literal letter or by
the end of the alternative, so maximal-munch matching is exact. -/
inductive Piece where
  | lit (s : List Char)
  | ws1
  | ws0
  | wsh1
  | wsh0
  | wd1
  deriving DecidableEq, Repr

/-- The two shapes of negative lookahead in the source:
`seekLine lits` is `(?!.*(?:l1|l2|...))` — some literal occurs at or after
the current position with no newline before it (`.` does not cross
newlines); `wsLit s` is `(?!\s*s)`. -/
inductive Nla where
  | seekLine (lits : List (List Char))
  | wsLit (s : List Char)
  deriving DecidableEq, Repr

/-- No newline among the characters of `t` with index in `[a, b)`. -/
def lineClear (t : List Char) (a b : Nat) : Bool :=
  ((t.drop a).take (b - a)).all (fun c => !(c == '\n'))

/-- Does a lookahead body match at position `e`? -/
def nlaMatch : Nla → List Char → Nat → Bool
  | .seekLine lits, t, e =>
    (List.range (t.length + 1)).any fun j =>
      decide (e ≤ j) && lineClear t e j && lits.any fun s => litAt s t j
  | .wsLit s, t, e => litAt s t (runEnd isWsChar t e)

/-- Match a piece sequence left to right from index `i`, returning the end
index on success. -/
def matchPieces : List Piece → List Char → Nat → Option Nat
  | [], _, i => some i
  | .lit s :: ps, t, i =>
    if litAt s t i then matchPieces ps t (i + s.length) else none
  | .ws1 :: ps, t, i =>
    let j := runEnd isWsChar t i
    if i < j then matchPieces ps t j else none
  | .ws0 :: ps, t, i => matchPieces ps t (runEnd isWsChar t i)
  | .wsh1 :: ps, t, i =>
    let j := runEnd isWshChar t i
    if i < j then matchPieces ps t j else none
  | .wsh0 :: ps, t, i => matchPieces ps t (runEnd isWshChar t i)
  | .wd1 :: ps, t, i =>
    let j := runEnd isWordChar t i
    if i < j then matchPieces ps t j else none

/-- One alternative of a pattern: a leading `b` (every alternative of the
source starts with one), the pieces, whether a `b` follows the pieces, and
an optional trailing negative lookahead. -/
structure Alt where
  pieces : List Piece
  rbound : Bool
  nla : Option Nla
  deriving DecidableEq, Repr

/-- Does alternative `a` match at index `i` of `t`? -/
def altMatchAt (a : Alt) (t : List Char) (i : Nat) : Bool :=
  wordBoundaryAt t i &&
    match matchPieces a.pieces t i with
    | none => false
    | some e =>
      (!a.rbound || wordBoundaryAt t e) &&
        match a.nla with
        | none => true
        | some n => !nlaMatch n t e

/-- `re.search`: does some alternative match at some index of `t`? -/
def patSearch (alts : List Alt) (t : List Char) : Bool :=
  (List.range (t.length + 1)).any fun i => alts.any fun a => altMatchAt a t i

/-- Lowercased character list of a text, the form the matcher reads. -/
def lowerData (text : String) : List Char :=
  text.data.map lowerChar

/-- A plain word-bounded literal alternative, the most common shape. -/
def wlit (s : String) : Alt := ⟨[.lit s.data], true, none⟩

/-- An alternative from pieces, with the trailing boundary. -/
def walt (ps : List Piece) : Alt := ⟨ps, true, none⟩

/-- Shorthand for a literal piece. -/
def pl (s : String) : Piece := .lit s.data

/-! ## The `CONTRACEPTIVES` pattern table, source lines 80-108 -/

/-- The five brand names of the generic-IUD lookahead
`(?!.*(?:mirena|kyleena|paragard|liletta|skyla))`, source line 86. -/
def iudBrandLits : List (List Char) :=
  ["mirena".data, "kyleena".data, "paragard".data, "liletta".data, "skyla".data]

/-- The bare-`iud` alternative of "IUD (general)":
`\biud\b(?!.*(?:mirena|kyleena|paragard|liletta|skyla))`. -/
def iudBareAlt : Alt := ⟨[pl "iud"], true, some (.seekLine iudBrandLits)⟩

/-- The second alternative of "IUD (general)": `\bhormonal\s+iud\b`. -/
def iudHormonalAlt : Alt := walt [pl "hormonal", .ws1, pl "iud"]

/-- `CONTRACEPTIVES`, source lines 80-108, one entry per dictionary key in
source order, each pattern transcribed alternative by alternative. -/
def CONTRACEPTIVES : List (String × List Alt) :=
  [("Mirena", [wlit "mirena", wlit "mirina", wlit "merena", wlit "merina"]),
   ("Kyleena", [wlit "kyleena", wlit "kylena"]),
   ("Liletta", [wlit "liletta", wlit "lilletta"]),
   ("Skyla", [wlit "skyla", wlit "skila"]),
   ("Paragard",
    [wlit "paragard", wlit "paraguard",
     walt [pl "para", .ws0, pl "guard"],
     walt [pl "copper", .ws0, pl "iud"],
     walt [pl "copper", .ws0, pl "t"]]),
   ("IUD (general)", [iudBareAlt, iudHormonalAlt]),
   ("Nexplanon",
    [wlit "nexplanon", wlit "nexplanion", wlit "implanon",
     walt [pl "the", .ws1, pl "implant"],
     walt [pl "arm", .ws1, pl "implant"],
     walt [pl "implant", .ws1, pl "in", .ws1, pl "arm"],
     walt [pl "implant", .ws1, pl "in", .ws1, pl "my", .ws1, pl "arm"]]),
   ("Combined pill",
    [walt [pl "combined", .ws1, pl "pill"],
     walt [pl "combination", .ws1, pl "pill"],
     wlit "coc"]),
   ("Mini pill",
    [walt [pl "mini", .wsh0, pl "pill"],
     wlit "pop",
     walt [pl "progestin", .wsh1, pl "only", .ws1, pl "pill"]]),
   ("The pill (general)",
    [walt [pl "the", .ws1, pl "pill"],
     walt [pl "the", .ws1, pl "pills"],
     walt [pl "birth", .ws0, pl "control", .ws1, pl "pill"],
     walt [pl "birth", .ws0, pl "control", .ws1, pl "pills"],
     walt [pl "bc", .ws1, pl "pill"],
     walt [pl "bc", .ws1, pl "pills"],
     walt [pl "oral", .ws1, pl "contracepti", .wd1],
     walt [pl "bc", .ws1, pl "pill"],
     walt [pl "bc", .ws1, pl "pills"]]),
   ("Depo-Provera",
    [wlit "depo",
     walt [pl "the", .ws1, pl "shot"],
     walt [pl "depo", .wsh0, pl "provera"],
     walt [pl "birth", .ws0, pl "control", .ws1, pl "shot"],
     walt [pl "bc", .ws1, pl "shot"]]),
   ("NuvaRing",
    [wlit "nuvaring",
     walt [pl "nuva", .ws1, pl "ring"],
     walt [pl "the", .ws1, pl "ring"],
     wlit "annovera"]),
   ("Xulane patch",
    [wlit "xulane",
     walt [pl "the", .ws1, pl "patch"],
     walt [pl "ortho", .ws0, pl "evra"],
     wlit "twirla",
     walt [pl "bc", .ws1, pl "patch"],
     walt [pl "birth", .ws0, pl "control", .ws1, pl "patch"]]),
   ("Plan B",
    [walt [pl "plan", .ws0, pl "b"],
     walt [pl "morning", .wsh1, pl "after"],
     walt [pl "emergency", .ws1, pl "contracep", .wd1],
     wlit "ella",
     walt [pl "ec", .ws1, pl "pill"]]),
   ("Condoms", [wlit "condom", wlit "condoms"]),
   ("Spermicide", [walt [pl "spermicid", .wd1]]),
   ("Diaphragm", [wlit "diaphragm", wlit "caya"]),
   ("FAM/NFP",
    [wlit "fam", wlit "nfp",
     walt [pl "fertility", .ws1, pl "awareness"],
     walt [pl "natural", .ws1, pl "family", .ws1, pl "planning"],
     wlit "temping", wlit "bbt",
     walt [pl "basal", .ws1, pl "body", .ws1, pl "temp"]]),
   ("Withdrawal",
    [wlit "withdrawal",
     walt [pl "pull", .ws0, pl "out"],
     walt [pl "pull", .ws0, pl "ing", .ws1, pl "out"],
     walt [pl "pull", .ws1, pl "out", .ws1, pl "method"]]),
   ("Slynd", [wlit "slynd"]),
   ("Yaz", [wlit "yaz", wlit "yasmin", wlit "yasmine"]),
   ("Lo Loestrin",
    [walt [pl "lo", .ws0, pl "loestrin"],
     walt [pl "lo", .ws0, pl "lo"]]),
   ("Phexxi", [wlit "phexxi"]),
   ("Ortho Tri-Cyclen",
    [walt [pl "ortho", .wsh0, pl "tri", .wsh0, pl "cyclen"],
     walt [pl "tri", .wsh0, pl "sprintec"],
     walt [pl "tri", .wsh0, pl "lo", .wsh0, pl "sprintec"]]),
   ("Junel",
    [wlit "junel",
     walt [pl "junel", .ws1, pl "fe"],
     ⟨[pl "loestrin"], true, some (.wsLit "lo".data)⟩,
     wlit "microgestin"]),
   ("Seasonique",
    [wlit "seasonique", wlit "seasonale", wlit "jolessa", wlit "camrese"]),
   ("Sprintec",
    [⟨[pl "sprintec"], true, some (.wsLit "tri".data)⟩,
     walt [pl "mono", .wsh0, pl "linyah"]])]

/-! ## The `SIDE_EFFECTS` pattern table, source lines 116-141 -/

/-- `SIDE_EFFECTS`, source lines 116-141, one entry per dictionary key in
source order.  The only alternative without a trailing `b` in either table
is `\birregular\s+bleed` of "Bleeding/spotting". -/
def SIDE_EFFECTS : List (String × List Alt) :=
  [("Bleeding/spotting",
    [wlit "bleed", wlit "bleeding", wlit "spotting",
     walt [pl "heavy", .ws1, pl "period"],
     ⟨[pl "irregular", .ws1, pl "bleed"], false, none⟩]),
   ("Cramping", [wlit "cramp", wlit "cramps", wlit "cramping"]),
   ("Weight gain",
    [walt [pl "weight", .ws1, pl "gain"],
     walt [pl "gained", .ws1, pl "weight"],
     walt [pl "gaining", .ws1, pl "weight"]]),
   ("Weight loss",
    [walt [pl "weight", .ws1, pl "loss"],
     walt [pl "lost", .ws1, pl "weight"],
     walt [pl "losing", .ws1, pl "weight"]]),
   ("Acne",
    [wlit "acne", wlit "breakout", wlit "breakouts", wlit "pimple",
     wlit "pimples", wlit "zit", wlit "zits"]),
   ("Hair loss",
    [walt [pl "hair", .ws1, pl "loss"],
     walt [pl "hair", .ws1, pl "thin"],
     walt [pl "hair", .ws1, pl "thinning"],
     walt [pl "hair", .ws1, pl "fall"],
     walt [pl "hair", .ws1, pl "falling"],
     walt [pl "shedding", .ws1, pl "hair"],
     walt [pl "losing", .ws1, pl "hair"]]),
   ("Mood swings",
    [walt [pl "mood", .ws1, pl "swing"],
     walt [pl "mood", .ws1, pl "swings"],
     walt [pl "mood", .ws1, pl "change"],
     walt [pl "mood", .ws1, pl "changes"],
     wlit "emotional", wlit "irritable", wlit "irritable", wlit "irritability"]),
   ("Depression",
    [wlit "depress", wlit "depressed", wlit "depression", wlit "depressing",
     walt [pl "mental", .ws1, pl "health"],
     wlit "suicidal"]),
   ("Anxiety",
    [wlit "anxiety", wlit "anxious",
     walt [pl "panic", .ws1, pl "attack"],
     walt [pl "panic", .ws1, pl "attacks"],
     wlit "nervous", wlit "nervousness"]),
   ("Headaches",
    [wlit "headache", wlit "headaches", wlit "migraine", wlit "migraines"]),
   ("Nausea",
    [wlit "nausea", wlit "nauseous", wlit "nauseated", wlit "vomit",
     wlit "vomiting",
     walt [pl "threw", .ws1, pl "up"],
     walt [pl "throw", .ws1, pl "up"],
     walt [pl "throwing", .ws1, pl "up"]]),
   ("Fatigue",
    [wlit "fatigue", wlit "fatigued", wlit "exhausted", wlit "exhaustion",
     wlit "tired", wlit "tiredness", wlit "lethargic", wlit "lethargc",
     walt [pl "no", .ws1, pl "energy"]]),
   ("Low libido",
    [walt [pl "low", .ws1, pl "libido"],
     walt [pl "no", .ws1, pl "drive"],
     walt [pl "no", .ws1, pl "sex", .ws1, pl "drive"],
     wlit "libido",
     walt [pl "sex", .ws1, pl "drive"]]),
   ("Breast tenderness",
    [walt [pl "breast", .ws1, pl "tender"],
     walt [pl "breast", .ws1, pl "tenderness"],
     walt [pl "breast", .ws1, pl "sore"],
     walt [pl "breast", .ws1, pl "soreness"],
     walt [pl "breast", .ws1, pl "pain"],
     walt [pl "sore", .ws1, pl "breast"],
     walt [pl "sore", .ws1, pl "breasts"],
     walt [pl "sore", .ws1, pl "boob"],
     walt [pl "sore", .ws1, pl "boobs"]]),
   ("Bloating", [wlit "bloat", wlit "bloated", wlit "bloating"]),
   ("Back pain",
    [walt [pl "back", .ws1, pl "pain"],
     walt [pl "lower", .ws1, pl "back"]]),
   ("Insertion pain",
    [walt [pl "insertion", .ws1, pl "pain"],
     walt [pl "insertion", .ws1, pl "hurt"],
     walt [pl "insertion", .ws1, pl "awful"],
     walt [pl "insertion", .ws1, pl "terrible"],
     walt [pl "pain", .ws1, pl "insertion"],
     walt [pl "painful", .ws1, pl "insertion"]]),
   ("Removal pain",
    [walt [pl "removal", .ws1, pl "pain"],
     walt [pl "removal", .ws1, pl "hurt"],
     walt [pl "pain", .ws1, pl "removal"],
     walt [pl "painful", .ws1, pl "removal"]]),
   ("Infection",
    [wlit "infection", wlit "infections", wlit "bv",
     walt [pl "yeast", .ws1, pl "infection"],
     walt [pl "bacterial", .ws1, pl "vaginosis"],
     wlit "uti"]),
   ("Strings",
    [wlit "string", wlit "strings",
     walt [pl "cant", .ws1, pl "feel"],
     walt [pl "can't", .ws1, pl "feel"],
     walt [pl "partner", .ws1, pl "feel"],
     walt [pl "partner", .ws1, pl "felt"]]),
   ("Expulsion",
    [wlit "expulsion", wlit "expulsed",
     walt [pl "fell", .ws1, pl "out"],
     walt [pl "came", .ws1, pl "out"],
     wlit "displaced", wlit "moved"]),
   ("Blood clots",
    [walt [pl "blood", .ws1, pl "clot"],
     walt [pl "blood", .ws1, pl "clots"],
     wlit "dvt", wlit "thrombosis", wlit "thromboses",
     walt [pl "pulmonary", .ws1, pl "embolism"],
     wlit "pe"]),
   ("Brain fog",
    [walt [pl "brain", .ws1, pl "fog"],
     wlit "foggy", wlit "fogginess",
     walt [pl "cant", .ws1, pl "think"],
     walt [pl "can't", .ws1, pl "think"],
     walt [pl "cant", .ws1, pl "concentrate"],
     walt [pl "can't", .ws1, pl "concentrate"],
     walt [pl "cant", .ws1, pl "focus"],
     walt [pl "can't", .ws1, pl "focus"]]),
   ("Dizziness",
    [wlit "dizzy", wlit "dizziness", wlit "lightheaded",
     wlit "faint", wlit "fainting", wlit "fainted"])]

/-! ## `find_mentions` and `find_side_effects`, source lines 230-235 -/

/-- `find_mentions`, source lines 230-231: the category names whose pattern
matches somewhere in the text, in table order. -/
def find_mentions (text : String) : List String :=
  (CONTRACEPTIVES.filter fun e => patSearch e.2 (lowerData text)).map fun e => e.1

/-- `find_side_effects`, source lines 234-235. -/
def find_side_effects (text : String) : List String :=
  (SIDE_EFFECTS.filter fun e => patSearch e.2 (lowerData text)).map fun e => e.1

/-! ## The store model

The SQLite tables of `get_db` (source lines 426-510) as lists of rows.
`Conn` also carries the per-connection counter read by
`sqlite3_last_insert_rowid` (what Python exposes as `cursor.lastrowid`
after an INSERT statement): it is 0 on a fresh connection and is set to
the rowid of each successfully inserted row; a statement that inserts
nothing leaves it unchanged.  In these insert-only tables the rowid of a
new row is the previous row count plus one.

The type `E` of the `engagement_score` REAL column and the function
`engFn` computing it are parameters; the source fixes
`E := Real, engFn := compute_engagement` (exact base-two logarithms are
not computable, and the engagement value never decides which rows or keys
are written). -/

/-- A row of the `posts` table. -/
structure PostRow (E : Type) where
  id : String
  title : String
  selftext : String
  created_utc : Int
  score : Int
  num_comments : Int
  permalink : String
  first_seen : String
  sentiment : Option ℚ
  comments_scraped : Bool
  subreddit : String
  engagement_score : E
  sort_source : String
  crosspost_parent : Option String
  deriving DecidableEq, Repr

/-- A row of the `comments` table. -/
structure CommentRow where
  id : String
  post_id : String
  body : String
  score : Int
  created_utc : Int
  author : String
  sentiment : Option ℚ
  first_seen : String
  deriving DecidableEq, Repr

/-- A row of the `scrape_runs` table (the columns the code writes). -/
structure ScrapeRun where
  scraped_at : String
  post_count : Nat
  subreddit : String
  deriving DecidableEq, Repr

/-- An open database connection: the five tables the write and read paths
touch, plus the last-insert-rowid connection state.  A mention row is
`(post_id, contraceptive)`, a side-effect row is
`(source_type, source_id, effect)`. -/
structure Conn (E : Type) where
  posts : List (PostRow E)
  mentions : List (String × String)
  side_effects : List (String × String × String)
  comments : List CommentRow
  scrape_runs : List ScrapeRun
  lastInsertRowid : Nat
  deriving DecidableEq, Repr

/-- A fresh connection to an empty database. -/
def emptyConn (E : Type) : Conn E := ⟨[], [], [], [], [], 0⟩

/-- A scraped post record as `save_posts_to_db` receives it.  The fields
read with `post.get(..., default)` in the source are `Option`s here. -/
structure Post where
  id : String
  title : String
  selftext : String
  created_utc : Int
  score : Int
  num_comments : Int
  permalink : String
  subreddit : Option String
  sort_source : Option String
  crosspost_parent : Option String
  deriving DecidableEq, Repr

/-- A scraped comment record as `save_comments_to_db` receives it. -/
structure CommentIn where
  id : String
  body : Option String
  score : Option Int
  created_utc : Option Int
  author : Option String
  deriving DecidableEq, Repr

/-- `INSERT OR IGNORE INTO mentions (post_id, contraceptive)`.  A new pair
is appended and sets the last-insert rowid; an existing pair changes
nothing (the ignored insert leaves `sqlite3_last_insert_rowid` alone). -/
def insertMention {E : Type} (conn : Conn E) (pid ctype : String) : Conn E :=
  if (pid, ctype) ∈ conn.mentions then conn
  else { conn with mentions := conn.mentions ++ [(pid, ctype)],
                   lastInsertRowid := conn.mentions.length + 1 }

/-- `INSERT OR IGNORE INTO side_effects (source_type, source_id, effect)`. -/
def insertSideEffect {E : Type} (conn : Conn E) (stype sid eff : String) : Conn E :=
  if (stype, sid, eff) ∈ conn.side_effects then conn
  else { conn with side_effects := conn.side_effects ++ [(stype, sid, eff)],
                   lastInsertRowid := conn.side_effects.length + 1 }

/-- The posts upsert of `save_posts_to_db` (source lines 537-553):
`INSERT INTO posts ... ON CONFLICT(id) DO UPDATE SET score, num_comments,
sentiment, engagement_score = MAX(posts.engagement_score,
excluded.engagement_score), sort_source = CASE WHEN excluded.sort_source =
'hot' THEN 'hot' ELSE posts.sort_source END`.  The update path inserts no
row, so the last-insert rowid keeps its previous (possibly stale) value —
exactly the behaviour of `cursor.lastrowid` that line 554 then reads. -/
def upsertPost {E : Type} [Max E] (conn : Conn E) (row : PostRow E) : Conn E :=
  if conn.posts.any fun p => p.id == row.id then
    { conn with posts := conn.posts.map fun p =>
        if p.id == row.id then
          { p with score := row.score,
                   num_comments := row.num_comments,
                   sentiment := row.sentiment,
                   engagement_score := max p.engagement_score row.engagement_score,
                   sort_source := if row.sort_source == "hot" then "hot" else p.sort_source }
        else p }
  else { conn with posts := conn.posts ++ [row],
                   lastInsertRowid := conn.posts.length + 1 }

/-- The comments upsert of `save_comments_to_db` (source lines 592-597):
`INSERT INTO comments ... ON CONFLICT(id) DO UPDATE SET score =
excluded.score, sentiment = excluded.sentiment`. -/
def upsertComment {E : Type} (conn : Conn E) (row : CommentRow) : Conn E :=
  if conn.comments.any fun c => c.id == row.id then
    { conn with comments := conn.comments.map fun c =>
        if c.id == row.id then
          { c with score := row.score, sentiment := row.sentiment }
        else c }
  else { conn with comments := conn.comments ++ [row],
                   lastInsertRowid := conn.comments.length + 1 }

/-- The row `save_posts_to_db` hands to the posts upsert for one scraped
post (the VALUES tuple of source lines 549-552). -/
def postRowOf {E : Type} (engFn : Int → Int → E) (subreddit now : String)
    (post : Post) : PostRow E :=
  ⟨post.id, post.title, post.selftext, post.created_utc, post.score,
   post.num_comments, post.permalink, now,
   score_sentiment (post.title ++ " " ++ post.selftext), false,
   post.subreddit.getD subreddit, engFn post.score post.num_comments,
   post.sort_source.getD "new", post.crosspost_parent⟩

/-- One iteration of the `for post in posts` loop of `save_posts_to_db`
(source lines 528-571): classify, upsert, count `if cur.lastrowid`, and
for non-cross-posts insert the mention rows of `mention_map` and the
side-effect rows of `find_side_effects`. -/
def savePostStep {E : Type} [Max E] (engFn : Int → Int → E)
    (mention_map : String → List String) (subreddit now : String)
    (acc : Conn E × Nat) (post : Post) : Conn E × Nat :=
  let conn1 := upsertPost acc.1 (postRowOf engFn subreddit now post)
  let cnt := if conn1.lastInsertRowid ≠ 0 then acc.2 + 1 else acc.2
  if post.crosspost_parent.isSome then (conn1, cnt)
  else
    let conn2 := (mention_map post.id).foldl
      (fun c ctype => insertMention c post.id ctype) conn1
    let conn3 := (find_side_effects (post.title ++ " " ++ post.selftext)).foldl
      (fun c eff => insertSideEffect c "post" post.id eff) conn2
    (conn3, cnt)

/-- `save_posts_to_db`, source lines 518-578: the loop over the batch,
then the `scrape_runs` row.  `now` stands for
`datetime.utcnow().isoformat()`.  Returns the updated connection and the
`new_count` return value. -/
def save_posts_to_db {E : Type} [Max E] (engFn : Int → Int → E)
    (conn : Conn E) (posts : List Post) (mention_map : String → List String)
    (subreddit : String) (now : String) : Conn E × Nat :=
  let out := posts.foldl (savePostStep engFn mention_map subreddit now) (conn, 0)
  let connF := { out.1 with
    scrape_runs := out.1.scrape_runs ++ [⟨now, posts.length, subreddit⟩],
    lastInsertRowid := out.1.scrape_runs.length + 1 }
  (connF, out.2)

/-- One iteration of the `for c in comments` loop of `save_comments_to_db`
(source lines 586-611): classify the body, upsert, count
`if cur.lastrowid`, insert the mention rows keyed by the argument
`post_id` and the side-effect rows keyed `('comment', comment id)`. -/
def saveCommentStep {E : Type} (post_id now : String)
    (acc : Conn E × Nat) (c : CommentIn) : Conn E × Nat :=
  let body := c.body.getD ""
  let conn1 := upsertComment acc.1
    ⟨c.id, post_id, body, c.score.getD 0, c.created_utc.getD 0,
     c.author.getD "", score_sentiment body, now⟩
  let cnt := if conn1.lastInsertRowid ≠ 0 then acc.2 + 1 else acc.2
  let conn2 := (find_mentions body).foldl
    (fun cn ctype => insertMention cn post_id ctype) conn1
  let conn3 := (find_side_effects body).foldl
    (fun cn eff => insertSideEffect cn "comment" c.id eff) conn2
  (conn3, cnt)

/-- `save_comments_to_db`, source lines 581-616: the loop over the batch,
then `UPDATE posts SET comments_scraped = 1`. -/
def save_comments_to_db {E : Type} (conn : Conn E) (post_id : String)
    (comments : List CommentIn) (now : String) : Conn E × Nat :=
  let out := comments.foldl (saveCommentStep post_id now) (conn, 0)
  let connF := { out.1 with posts := out.1.posts.map fun p =>
    if p.id == post_id then { p with comments_scraped := true } else p }
  (connF, out.2)

/-- `backfill_sentiment_and_effects`, source lines 653-700.  Three passes,
each over a row list selected before its loop runs (`fetchall`):
sentiment and side effects for posts with NULL sentiment and non-empty
selftext — with no cross-post test; engagement for posts with
`engagement_score = 0` (the column is declared with DEFAULT 0 and set by
every insert path, so the IS NULL disjunct of the source never fires);
mentions for non-cross-posts with non-empty selftext.  The function only
logs its `new_mentions` counter, so it is not returned. -/
def backfill_sentiment_and_effects {E : Type} [DecidableEq E] [Zero E]
    (engFn : Int → Int → E) (conn : Conn E) : Conn E :=
  let rows1 := conn.posts.filter fun r => r.sentiment.isNone && r.selftext != ""
  let connA := rows1.foldl
    (fun cn r =>
      let text := r.title ++ " " ++ r.selftext
      let sent := score_sentiment text
      let cn1 := { cn with posts := cn.posts.map fun p =>
        if p.id == r.id then { p with sentiment := sent } else p }
      (find_side_effects text).foldl
        (fun c eff => insertSideEffect c "post" r.id eff) cn1)
    conn
  let rows2 := connA.posts.filter fun r => decide (r.engagement_score = 0)
  let connB := rows2.foldl
    (fun cn r =>
      let eng := engFn r.score r.num_comments
      { cn with posts := cn.posts.map fun p =>
        if p.id == r.id then { p with engagement_score := eng } else p })
    connA
  let rows3 := connB.posts.filter fun r =>
    r.selftext != "" && r.crosspost_parent.isNone
  rows3.foldl
    (fun cn r =>
      (find_mentions (r.title ++ " " ++ r.selftext)).foldl
        (fun c ctype => insertMention c r.id ctype) cn)
    connB

/-! ## The query layer, source lines 736-961

Each query builds one SQL statement; here the joined, filtered row
multiset is built with list operations and then grouped.  SQL leaves the
order of rows with equal ORDER BY keys to the engine; the models sort with
a stable insertion sort over the group list, so facts proved below about
query results are membership and count facts, which do not depend on that
artefact.  `date_from`/`date_to` translate the source's
`p.created_utc >= ?` / `p.created_utc <= ?` conjuncts. -/

/-- The `>= ?` lower-bound conjunct (absent filter: no constraint). -/
def dateOkFrom (a : Option Int) (ts : Int) : Bool :=
  match a with
  | some v => decide (v ≤ ts)
  | none => true

/-- The `<= ?` upper-bound conjunct. -/
def dateOkTo (b : Option Int) (ts : Int) : Bool :=
  match b with
  | some v => decide (ts ≤ v)
  | none => true

/-- The `p.subreddit = ?` conjunct. -/
def subOk (s : Option String) (sub : String) : Bool :=
  match s with
  | some v => sub == v
  | none => true

/-- `GROUP BY` with `COUNT(*)`: one pair per distinct row value, with its
multiplicity. -/
def groupCounts {α : Type} [DecidableEq α] (rows : List α) : List (α × Nat) :=
  rows.dedup.map fun k => (k, rows.count k)

/-- `ORDER BY cnt DESC` (ties left to the stable sort). -/
def sortCntDesc {α : Type} (l : List (α × Nat)) : List (α × Nat) :=
  List.insertionSort (fun x y => y.2 ≤ x.2) l

/-- `query_mention_counts`, source lines 748-770:
`SELECT m.contraceptive, COUNT(*) FROM mentions m [JOIN posts p ON p.id =
m.post_id WHERE ...] GROUP BY m.contraceptive ORDER BY cnt DESC`.  The
join is added only when a date or subreddit filter is present. -/
def query_mention_counts {E : Type} (conn : Conn E)
    (date_from date_to : Option Int) (subreddit : Option String) :
    List (String × Nat) :=
  let need_join := date_from.isSome || date_to.isSome || subreddit.isSome
  let rows : List String :=
    if need_join then
      conn.mentions.flatMap fun m =>
        (conn.posts.filter fun p =>
            p.id == m.1 && dateOkFrom date_from p.created_utc &&
            dateOkTo date_to p.created_utc && subOk subreddit p.subreddit).map
          fun _ => m.2
    else conn.mentions.map fun m => m.2
  sortCntDesc (groupCounts rows)

/-- `date(ts, 'unixepoch')` groups timestamps by UTC calendar day; the
model uses the day index (floor division by 86400) as the grouping key in
place of the formatted string. -/
def dayOf (ts : Int) : Int := ts.fdiv 86400

/-- `query_daily_counts`, source lines 773-797: per (day, contraceptive)
count over mentions joined to posts with `p.created_utc > 0`, the optional
window and subreddit filters, `GROUP BY day, m.contraceptive ORDER BY
day`.  The source folds the rows into a nested dict; the model keeps the
grouped rows as a list, the same information. -/
def query_daily_counts {E : Type} (conn : Conn E)
    (date_from date_to : Option Int) (subreddit : Option String) :
    List ((Int × String) × Nat) :=
  let rows : List (Int × String) :=
    conn.mentions.flatMap fun m =>
      (conn.posts.filter fun p =>
          p.id == m.1 && decide (0 < p.created_utc) &&
          dateOkFrom date_from p.created_utc && dateOkTo date_to p.created_utc &&
          subOk subreddit p.subreddit).map
        fun p => (dayOf p.created_utc, m.2)
  List.insertionSort (fun x y => x.1.1 ≤ y.1.1) (groupCounts rows)

/-- `round(·, 3)` applied by `query_sentiment_by_type` to each average
(the float function rounds half to even; on the exact rationals here the
nearest multiple of 1/1000 is taken, which agrees except on exact
half-thousandth ties). -/
def round3 (q : ℚ) : ℚ := ((round (q * 1000) : ℤ) : ℚ) / 1000

/-- `query_sentiment_by_type`, source lines 854-875:
`SELECT m.contraceptive, AVG(p.sentiment), COUNT(*) FROM mentions m JOIN
posts p ON p.id = m.post_id WHERE p.sentiment IS NOT NULL [...] GROUP BY
m.contraceptive HAVING cnt >= 2 ORDER BY avg_s DESC`. -/
def query_sentiment_by_type {E : Type} (conn : Conn E)
    (date_from date_to : Option Int) (subreddit : Option String) :
    List (String × ℚ × Nat) :=
  let rows : List (String × ℚ) :=
    conn.mentions.flatMap fun m =>
      (conn.posts.filter fun p =>
          p.id == m.1 && p.sentiment.isSome &&
          dateOkFrom date_from p.created_utc && dateOkTo date_to p.created_utc &&
          subOk subreddit p.subreddit).map
        fun p => (m.2, p.sentiment.getD 0)
  let grouped := ((rows.map fun r => r.1).dedup).map fun c =>
    let ss := (rows.filter fun r => r.1 == c).map fun r => r.2
    (c, round3 (ss.sum / (ss.length : ℚ)), ss.length)
  List.insertionSort (fun x y => y.2.1 ≤ x.2.1)
    (grouped.filter fun g => 2 ≤ g.2.2)

/-- The WHERE conditions of `query_side_effect_counts` for one
side-effect row, source lines 884-909.  `LEFT JOIN posts p ON
(se.source_type = 'post' AND se.source_id = p.id)` and the comment
counterpart: when no row of the joined table matches, the row survives
with NULLs (`[none]` here).  The conjuncts compare
`COALESCE(p.created_utc, c.created_utc)` with the bounds (a NULL
comparison is not true), join `mentions` on `COALESCE(p.id, c.post_id)`
for the contraceptive filter, and compare `COALESCE(p.subreddit, (SELECT
p2.subreddit FROM posts p2 WHERE p2.id = c.post_id))` for the subreddit
filter. -/
def seQualifies {E : Type} (conn : Conn E)
    (date_from date_to : Option Int) (contraceptive subreddit : Option String)
    (se : String × String × String) : Bool :=
  let pOpts := if se.1 == "post"
    then conn.posts.filter fun p => p.id == se.2.1 else []
  let cOpts := if se.1 == "comment"
    then conn.comments.filter fun c => c.id == se.2.1 else []
  let pRows : List (Option (PostRow E)) :=
    if pOpts.isEmpty then [none] else pOpts.map some
  let cRows : List (Option CommentRow) :=
    if cOpts.isEmpty then [none] else cOpts.map some
  pRows.any fun po => cRows.any fun co =>
    let ts : Option Int :=
      (po.map fun p => p.created_utc).orElse fun _ => co.map fun c => c.created_utc
    (match date_from with
     | some a => match ts with
       | some v => decide (a ≤ v)
       | none => false
     | none => true) &&
    (match date_to with
     | some b => match ts with
       | some v => decide (v ≤ b)
       | none => false
     | none => true) &&
    (match contraceptive with
     | some ct =>
       let pid : Option String :=
         (po.map fun p => p.id).orElse fun _ => co.map fun c => c.post_id
       conn.mentions.any fun m => some m.1 == pid && m.2 == ct
     | none => true) &&
    (match subreddit with
     | some sb =>
       let s : Option String :=
         (po.map fun p => p.subreddit).orElse fun _ =>
           co.bind fun c =>
             ((conn.posts.filter fun p2 => p2.id == c.post_id).head?).map
               fun p2 => p2.subreddit
       s == some sb
     | none => true)

/-- `query_side_effect_counts`, source lines 878-911:
`SELECT se.effect, COUNT(DISTINCT se.source_id) FROM side_effects se
[LEFT JOIN ... WHERE ...] GROUP BY se.effect ORDER BY cnt DESC`.  With no
filter at all the joins are not added and every row counts. -/
def query_side_effect_counts {E : Type} (conn : Conn E)
    (date_from date_to : Option Int) (contraceptive subreddit : Option String) :
    List (String × Nat) :=
  let need_filter := date_from.isSome || date_to.isSome ||
    contraceptive.isSome || subreddit.isSome
  let qual := if need_filter
    then conn.side_effects.filter
      (seQualifies conn date_from date_to contraceptive subreddit)
    else conn.side_effects
  let effects := (qual.map fun r => r.2.2).dedup
  sortCntDesc (effects.map fun e =>
    (e, ((qual.filter fun r => r.2.2 == e).map fun r => r.2.1).dedup.length))

/-! ## Lemmas about the sentiment scorer -/

/-- A token of the positive or negative lexicon. -/
def lexPN (w : String) : Bool :=
  _POSITIVE_WORDS.contains w || _NEGATIVE_WORDS.contains w

/-- A token that changes a tally: in the positive or negative lexicon and
in neither modifier lexicon (the two modifier branches `continue`). -/
def lexHit (w : String) : Bool :=
  !_NEGATORS.contains w && !_INTENSIFIERS.contains w && lexPN w

/-- The loop invariant: nonnegative tallies, positive intensity. -/
def SentInv (st : SentState) : Prop :=
  0 ≤ st.pos ∧ 0 ≤ st.neg ∧ 0 < st.intensify

theorem sentInv_init : SentInv sentInit := by
  refine ⟨le_refl 0, le_refl 0, one_pos⟩

theorem sentStep_inv (st : SentState) (w : String) (h : SentInv st) :
    SentInv (sentStep st w) := by
  obtain ⟨h1, h2, h3⟩ := h
  unfold sentStep SentInv
  split_ifs <;> simp only <;>
    exact ⟨by linarith, by linarith, by linarith⟩

theorem sentStep_total (st : SentState) (w : String) :
    (sentStep st w).pos + (sentStep st w).neg =
      st.pos + st.neg + (if lexHit w then st.intensify else 0) := by
  unfold sentStep lexHit lexPN
  split_ifs with h1 h2 h3 h4 h5 h6 <;> simp_all <;> ring

theorem run_inv (ws : List String) :
    ∀ st : SentState, SentInv st → SentInv (ws.foldl sentStep st) := by
  induction ws with
  | nil => intro st h; exact h
  | cons w ws ih =>
    intro st h
    exact ih (sentStep st w) (sentStep_inv st w h)

theorem run_total_mono (ws : List String) :
    ∀ st : SentState, SentInv st →
      st.pos + st.neg ≤
        (ws.foldl sentStep st).pos + (ws.foldl sentStep st).neg := by
  induction ws with
  | nil => intro st _; exact le_refl _
  | cons w ws ih =>
    intro st h
    have h1 := ih (sentStep st w) (sentStep_inv st w h)
    have h2 := sentStep_total st w
    have h3 : st.pos + st.neg ≤ (sentStep st w).pos + (sentStep st w).neg := by
      rw [h2]
      split_ifs with hw
      · linarith [h.2.2]
      · linarith
    simp only [List.foldl_cons]
    linarith

theorem run_total_const_iff (ws : List String) :
    ∀ st : SentState, SentInv st →
      ((ws.foldl sentStep st).pos + (ws.foldl sentStep st).neg = st.pos + st.neg ↔
        ∀ w ∈ ws, lexHit w = false) := by
  induction ws with
  | nil => intro st _; simp
  | cons w ws ih =>
    intro st h
    have hst' := sentStep_inv st w h
    have hmono := run_total_mono ws (sentStep st w) hst'
    have hstep := sentStep_total st w
    constructor
    · intro heq
      have hge : st.pos + st.neg ≤ (sentStep st w).pos + (sentStep st w).neg := by
        rw [hstep]
        split_ifs with hw
        · linarith [h.2.2]
        · linarith
      have hconst : (sentStep st w).pos + (sentStep st w).neg = st.pos + st.neg := by
        simp only [List.foldl_cons] at heq
        linarith
      have hw : lexHit w = false := by
        by_contra hw
        rw [Bool.not_eq_false] at hw
        rw [hstep, if_pos hw] at hconst
        have := h.2.2
        linarith
      intro x hx
      rcases List.mem_cons.mp hx with rfl | hx
      · exact hw
      · refine ((ih (sentStep st w) hst').mp ?_) x hx
        simp only [List.foldl_cons] at heq
        linarith
    · intro hall
      have hw := hall w (List.mem_cons_self w ws)
      have hrest := (ih (sentStep st w) hst').mpr
        (fun x hx => hall x (List.mem_cons_of_mem w hx))
      simp only [List.foldl_cons, hrest, hstep, hw]
      simp

theorem modifiers_not_lexPN :
    ∀ w : String, (_NEGATORS.contains w || _INTENSIFIERS.contains w) = true →
      lexPN w = false := by
  intro w hw
  rw [Bool.or_eq_true] at hw
  rcases hw with h | h
  · have hm : w ∈ _NEGATORS := by
      simpa using h
    fin_cases hm <;> rfl
  · have hm : w ∈ _INTENSIFIERS := by
      simpa using h
    fin_cases hm <;> rfl

theorem lexHit_eq_false_iff (w : String) :
    lexHit w = false ↔ lexPN w = false := by
  constructor
  · intro h
    unfold lexHit at h
    rcases Bool.eq_false_or_eq_true (_NEGATORS.contains w || _INTENSIFIERS.contains w) with
      hm | hm
    · exact modifiers_not_lexPN w hm
    · simp only [Bool.or_eq_false_iff] at hm
      rw [hm.1, hm.2] at h
      simpa using h
  · intro h
    simp [lexHit, h]

/-- `score_sentiment` without the early return: when the token list is
empty the final state IS the initial state, whose tallies are zero, so the
`total == 0` test subsumes the `if not words` test. -/
theorem score_sentiment_eq (s : String) :
    score_sentiment s =
      (if ((tokenize s).foldl sentStep sentInit).pos +
            ((tokenize s).foldl sentStep sentInit).neg = 0
       then none
       else some (max (-1) (min 1
         ((((tokenize s).foldl sentStep sentInit).pos -
             ((tokenize s).foldl sentStep sentInit).neg) /
          (((tokenize s).foldl sentStep sentInit).pos +
             ((tokenize s).foldl sentStep sentInit).neg))))) := by
  by_cases hws : tokenize s = []
  · simp [score_sentiment, hws, sentInit]
  · simp only [score_sentiment, if_neg hws]

/-- C4: for every input text, `score_sentiment` returns `none` iff no word
token of the text belongs to the positive or negative lexicon, and any
returned score lies in the closed interval [-1, 1]. -/
theorem C4_sentiment_none_iff_and_range (s : String) :
    (score_sentiment s = none ↔
      ∀ w ∈ tokenize s, ¬(w ∈ _POSITIVE_WORDS ∨ w ∈ _NEGATIVE_WORDS)) ∧
    (∀ q : ℚ, score_sentiment s = some q → -1 ≤ q ∧ q ≤ 1) := by
  have hkey := run_total_const_iff (tokenize s) sentInit sentInv_init
  have h0 : sentInit.pos + sentInit.neg = 0 := by norm_num [sentInit]
  rw [h0] at hkey
  have hbridge : (∀ w ∈ tokenize s, lexHit w = false) ↔
      ∀ w ∈ tokenize s, ¬(w ∈ _POSITIVE_WORDS ∨ w ∈ _NEGATIVE_WORDS) := by
    refine forall₂_congr fun w _ => ?_
    rw [lexHit_eq_false_iff]
    simp [lexPN]
  constructor
  · rw [score_sentiment_eq]
    split_ifs with ht
    · simpa [hkey, hbridge] using ht
    · simp only [reduceCtorEq, false_iff]
      intro hall
      exact ht (hkey.mpr (hbridge.mpr hall))
  · intro q hq
    rw [score_sentiment_eq] at hq
    split_ifs at hq with ht
    have hxq := Option.some_inj.mp hq
    subst hxq
    exact ⟨le_max_left _ _, max_le (by norm_num) (min_le_left _ _)⟩

/-- C5: one step of the scorer loop: a negator token sets the negate flag
and keeps the intensity multiplier; an intensifier token sets the
multiplier to 1.5 and keeps the negate flag; a token in none of the four
lexicons resets the flag to false and the multiplier to 1 — so a pending
negation or intensification never survives an intervening ordinary word. -/
theorem C5_modifier_state (st : SentState) (w : String) :
    (_NEGATORS.contains w = true → sentStep st w = { st with negate := true }) ∧
    (_NEGATORS.contains w = false → _INTENSIFIERS.contains w = true →
      sentStep st w = { st with intensify := 3/2 }) ∧
    (_NEGATORS.contains w = false → _INTENSIFIERS.contains w = false →
      _POSITIVE_WORDS.contains w = false → _NEGATIVE_WORDS.contains w = false →
      sentStep st w = { st with negate := false, intensify := 1 }) := by
  refine ⟨fun h1 => ?_, fun h1 h2 => ?_, fun h1 h2 h3 h4 => ?_⟩
  · have hn : w ∈ _NEGATORS := by simpa using h1
    simp [sentStep, hn]
  · have hn : w ∉ _NEGATORS := by simpa using h1
    have hi : w ∈ _INTENSIFIERS := by simpa using h2
    simp [sentStep, hn, hi]
  · have hn : w ∉ _NEGATORS := by simpa using h1
    have hi : w ∉ _INTENSIFIERS := by simpa using h2
    have hp : w ∉ _POSITIVE_WORDS := by simpa using h3
    have hg : w ∉ _NEGATIVE_WORDS := by simpa using h4
    simp [sentStep, hn, hi, hp, hg]

/-- Witness for C5 at concrete inputs: "not" keeps a pending 1.5 intensity
while setting the flag, "very" keeps a pending negate flag while setting
the intensity, and the ordinary word "iud" clears both. -/
theorem C5_modifier_state_witness :
    sentStep ⟨5, 7, false, 3/2⟩ "not" = ⟨5, 7, true, 3/2⟩ ∧
    sentStep ⟨5, 7, true, 1⟩ "very" = ⟨5, 7, true, 3/2⟩ ∧
    sentStep ⟨5, 7, true, 3/2⟩ "iud" = ⟨5, 7, false, 1⟩ :=
  ⟨(C5_modifier_state ⟨5, 7, false, 3/2⟩ "not").1 rfl,
   (C5_modifier_state ⟨5, 7, true, 1⟩ "very").2.1 rfl rfl,
   (C5_modifier_state ⟨5, 7, true, 3/2⟩ "iud").2.2 rfl rfl rfl rfl⟩

/-- C9: the engagement scorer equals
`log2(max(votes,1)) + 1.5 * log2(max(comments,1))` for all integer inputs,
its logarithm arguments are at least one (so the real logarithm is taken
on its domain even for zero or negative counts), and its value is never
negative. -/
theorem C9_engagement_formula (score num_comments : ℤ) :
    compute_engagement score num_comments =
      Real.logb 2 ((max score 1 : ℤ) : ℝ) +
        1.5 * Real.logb 2 ((max num_comments 1 : ℤ) : ℝ) ∧
    (1 : ℝ) ≤ ((max score 1 : ℤ) : ℝ) ∧
    (1 : ℝ) ≤ ((max num_comments 1 : ℤ) : ℝ) ∧
    0 ≤ compute_engagement score num_comments := by
  have hs : (1 : ℝ) ≤ ((max score 1 : ℤ) : ℝ) := by
    exact_mod_cast le_max_right score 1
  have hc : (1 : ℝ) ≤ ((max num_comments 1 : ℤ) : ℝ) := by
    exact_mod_cast le_max_right num_comments 1
  have hone : (1 : ℝ) < 2 := by norm_num
  refine ⟨by unfold compute_engagement; ring, hs, hc, ?_⟩
  unfold compute_engagement
  have h1 := Real.logb_nonneg hone hs
  have h2 := Real.logb_nonneg hone hc
  nlinarith

/-! ## Concrete evaluations

Rational arithmetic does not reduce inside the kernel (Nat.gcd is
proof-carrying), so the two sentiment values needed below are computed by
rewriting; everything else evaluates by `decide`. -/

/-- The single positive token "great" scores (1-0)/(1+0) = 1, clamped
unchanged. -/
theorem score_sentiment_great : score_sentiment "great" = some 1 := by
  have ht : tokenize "great" = ["great"] := by decide
  have hmem1 : "great" ∉ _NEGATORS := by decide
  have hmem2 : "great" ∉ _INTENSIFIERS := by decide
  have hmem3 : "great" ∈ _POSITIVE_WORDS := by decide
  rw [score_sentiment_eq, ht]
  simp only [List.foldl_cons, List.foldl_nil]
  rw [show sentStep sentInit "great" = ⟨1, 0, false, 1⟩ by
    simp [sentStep, sentInit, hmem1, hmem2, hmem3]]
  norm_num

/-- Witness for C4 at the text "great": the hypothesis of the range part
is discharged with the concrete score `some 1`, which lies in [-1, 1]. -/
theorem C4_sentiment_witness : (-1 : ℚ) ≤ 1 ∧ (1 : ℚ) ≤ 1 :=
  (C4_sentiment_none_iff_and_range "great").2 1 score_sentiment_great

/-- Neither "iud" nor "cramps" is in any sentiment lexicon, so the text of
the C1 failing input has no sentiment signal and is stored with NULL
sentiment. -/
theorem score_sentiment_iud_cramps : score_sentiment "iud cramps" = none := by
  have ht : tokenize "iud cramps" = ["iud", "cramps"] := by decide
  have hfold : (["iud", "cramps"] : List String).foldl sentStep sentInit = sentInit := by
    decide
  rw [score_sentiment_eq, ht, hfold]
  norm_num [sentInit]

/-- The title-plus-selftext concatenation of the C1 failing input. -/
theorem c1_text_app : ("iud" ++ " " ++ "cramps" : String) = "iud cramps" := rfl

/-- The failing input's text matches exactly the "Cramping" side-effect
category. -/
theorem c1_text_effects : find_side_effects "iud cramps" = ["Cramping"] := by decide

/-- A stand-in engagement function for the executable store instances: the
claims decided on these instances never depend on the engagement value
(`compute_engagement` itself is settled in C9 over the reals). -/
def engT : Int → Int → Int := fun v c => v + 2 * c

/-- The C1 failing input: a cross-post (parent "p0") whose text "iud
cramps" has a side-effect match and no sentiment-lexicon token. -/
def c1post : Post := ⟨"x1", "iud", "cramps", 100, 0, 0, "", none, none, some "p0"⟩

/-- The database state `save_posts_to_db` leaves behind for the C1 failing
input: the cross-post row stored with NULL sentiment, no mention row, no
side-effect row. -/
def c1conn : Conn Int :=
  ⟨[⟨"x1", "iud", "cramps", 100, 0, 0, "", "T0", none, false, "birthcontrol",
     0, "new", some "p0"⟩], [], [], [], [⟨"T0", 1, "birthcontrol"⟩], 1⟩

/-- C1 (code bug, evaluated at the failing input): saving the cross-post
honours the cross-post rule — no Mention row, no SideEffectTag row — and
leaves the row with NULL sentiment; but the next
`backfill_sentiment_and_effects` pass, whose sentiment query has no
cross-post test, inserts the SideEffectTag row ("post", "x1", "Cramping")
for the cross-post, violating the claimed invariant.  (Its mention pass
does filter on `crosspost_parent IS NULL`, so Mention stays empty.) -/
theorem C1_crosspost_backfill_side_effect_bug :
    (save_posts_to_db engT (emptyConn Int) [c1post] (fun _ => []) "birthcontrol" "T0").1 =
      c1conn ∧
    c1conn.side_effects = [] ∧
    c1conn.mentions = [] ∧
    (backfill_sentiment_and_effects engT c1conn).side_effects =
      [("post", "x1", "Cramping")] ∧
    (backfill_sentiment_and_effects engT c1conn).mentions = [] ∧
    ((backfill_sentiment_and_effects engT c1conn).posts.map fun r => r.crosspost_parent) =
      [some "p0"] := by
  refine ⟨?_, by decide, by decide, by decide, by decide, by decide⟩
  norm_num [save_posts_to_db, savePostStep, postRowOf, upsertPost, emptyConn, c1post, c1conn, engT,
    c1_text_app, score_sentiment_iud_cramps]

/-- The C7 failing input: a fresh connection to a database already holding
post "B"; the incoming batch has new post "A" followed by a re-observation
of "B". -/
def c7conn : Conn Int :=
  ⟨[⟨"B", "", "", 50, 1, 1, "", "F", none, false, "birthcontrol", 0, "new", none⟩],
   [], [], [], [], 0⟩

/-- The C7 batch: "A" is new, "B" already exists. -/
def c7batch : List Post :=
  [⟨"A", "", "", 60, 2, 0, "", none, none, none⟩,
   ⟨"B", "", "", 50, 3, 1, "", none, none, none⟩]

/-- C7 (code bug, evaluated at the failing input): the batch creates
exactly one new row (the table grows from ["B"] to ["B", "A"]), but
`save_posts_to_db` returns 2: after "A"'s insert the connection's
last-insert rowid is nonzero, and "B"'s upsert takes the UPDATE path,
which inserts nothing and leaves that stale value in place, so
`if cur.lastrowid` miscounts the update as a creation. -/
theorem C7_new_count_overcount_bug :
    (save_posts_to_db engT c7conn c7batch (fun _ => []) "birthcontrol" "T1").2 = 2 ∧
    ((save_posts_to_db engT c7conn c7batch (fun _ => []) "birthcontrol" "T1").1.posts.map
      fun p => p.id) = ["B", "A"] ∧
    (c7conn.posts.map fun p => p.id) = ["B"] := by decide

/-- The C3 counterexample state: one mention of "Condoms" on a post whose
creation timestamp is exactly 100. -/
def c3conn : Conn Int :=
  ⟨[⟨"p", "t", "", 100, 1, 0, "", "F", none, false, "birthcontrol", 0, "new", none⟩],
   [("p", "Condoms")], [], [], [], 0⟩

/-- C3 counterexample: with the window end bound equal to the item's
creation timestamp (100), the category-counts query still counts the item
— the source filters with `p.created_utc <= ?`, a closed upper bound — so
the claimed half-open [start, end) semantics is false; lowering the bound
to 99 is what excludes the item. -/
theorem C3_counterexample :
    ("Condoms", 1) ∈ query_mention_counts c3conn none (some 100) none ∧
    query_mention_counts c3conn none (some 99) none = [] := by decide

/-- C2 counterexample: the text "mirena iud" is reported both as the
specific brand "Mirena" and as "IUD (general)": the generic pattern's
negative lookahead `(?!.*(?:mirena|...))` scans only to the right of the
matched `iud` token, so a brand name standing before it does not suppress
the generic category. -/
theorem C2_counterexample :
    "Mirena" ∈ find_mentions "mirena iud" ∧
    "IUD (general)" ∈ find_mentions "mirena iud" := by decide

/-! ## Insert-row lemmas for the save paths -/

section InsertLemmas

variable {E : Type}

theorem insertMention_mem_of_mem (c : Conn E) (pid ctype : String)
    {pr : String × String} (h : pr ∈ c.mentions) :
    pr ∈ (insertMention c pid ctype).mentions := by
  unfold insertMention
  split_ifs <;> simp [h]

theorem insertMention_self (c : Conn E) (pid ctype : String) :
    (pid, ctype) ∈ (insertMention c pid ctype).mentions := by
  unfold insertMention
  split_ifs with h <;> simp [h]

theorem insertMention_mem (c : Conn E) (pid ctype : String)
    {pr : String × String} (h : pr ∈ (insertMention c pid ctype).mentions) :
    pr ∈ c.mentions ∨ pr = (pid, ctype) := by
  unfold insertMention at h
  split_ifs at h with hc
  · exact Or.inl h
  · simpa using List.mem_append.mp h

theorem insertMention_side_effects (c : Conn E) (pid ctype : String) :
    (insertMention c pid ctype).side_effects = c.side_effects := by
  unfold insertMention
  split_ifs <;> rfl

theorem insertSideEffect_mem_of_mem (c : Conn E) (st sid eff : String)
    {r : String × String × String} (h : r ∈ c.side_effects) :
    r ∈ (insertSideEffect c st sid eff).side_effects := by
  unfold insertSideEffect
  split_ifs <;> simp [h]

theorem insertSideEffect_self (c : Conn E) (st sid eff : String) :
    (st, sid, eff) ∈ (insertSideEffect c st sid eff).side_effects := by
  unfold insertSideEffect
  split_ifs with h <;> simp [h]

theorem insertSideEffect_mentions (c : Conn E) (st sid eff : String) :
    (insertSideEffect c st sid eff).mentions = c.mentions := by
  unfold insertSideEffect
  split_ifs <;> rfl

theorem foldl_insertMention_mem_of_mem (l : List String) (pid : String) :
    ∀ (c : Conn E) {pr : String × String}, pr ∈ c.mentions →
      pr ∈ (l.foldl (fun cn ctype => insertMention cn pid ctype) c).mentions := by
  induction l with
  | nil => intro c pr h; exact h
  | cons x l ih =>
    intro c pr h
    exact ih (insertMention c pid x) (insertMention_mem_of_mem c pid x h)

theorem foldl_insertMention_adds (l : List String) (pid : String) :
    ∀ (c : Conn E) {ctype : String}, ctype ∈ l →
      (pid, ctype) ∈ (l.foldl (fun cn ct => insertMention cn pid ct) c).mentions := by
  induction l with
  | nil => intro c ctype h; exact absurd h (List.not_mem_nil ctype)
  | cons x l ih =>
    intro c ctype h
    rcases List.mem_cons.mp h with rfl | h
    · exact foldl_insertMention_mem_of_mem l pid (insertMention c pid ctype)
        (insertMention_self c pid ctype)
    · exact ih (insertMention c pid x) h

theorem foldl_insertMention_mem (l : List String) (pid : String) :
    ∀ (c : Conn E) {pr : String × String},
      pr ∈ (l.foldl (fun cn ct => insertMention cn pid ct) c).mentions →
      pr ∈ c.mentions ∨ pr.1 = pid := by
  induction l with
  | nil => intro c pr h; exact Or.inl h
  | cons x l ih =>
    intro c pr h
    rcases ih (insertMention c pid x) h with h2 | h2
    · rcases insertMention_mem c pid x h2 with h3 | h3
      · exact Or.inl h3
      · exact Or.inr (by rw [h3])
    · exact Or.inr h2

theorem foldl_insertMention_side_effects (l : List String) (pid : String) :
    ∀ c : Conn E,
      (l.foldl (fun cn ct => insertMention cn pid ct) c).side_effects =
        c.side_effects := by
  induction l with
  | nil => intro c; rfl
  | cons x l ih =>
    intro c
    rw [List.foldl_cons, ih, insertMention_side_effects]

theorem foldl_insertSideEffect_mem_of_mem (l : List String) (st sid : String) :
    ∀ (c : Conn E) {r : String × String × String}, r ∈ c.side_effects →
      r ∈ (l.foldl (fun cn eff => insertSideEffect cn st sid eff) c).side_effects := by
  induction l with
  | nil => intro c r h; exact h
  | cons x l ih =>
    intro c r h
    exact ih (insertSideEffect c st sid x) (insertSideEffect_mem_of_mem c st sid x h)

theorem foldl_insertSideEffect_adds (l : List String) (st sid : String) :
    ∀ (c : Conn E) {eff : String}, eff ∈ l →
      (st, sid, eff) ∈
        (l.foldl (fun cn e => insertSideEffect cn st sid e) c).side_effects := by
  induction l with
  | nil => intro c eff h; exact absurd h (List.not_mem_nil eff)
  | cons x l ih =>
    intro c eff h
    rcases List.mem_cons.mp h with rfl | h
    · exact foldl_insertSideEffect_mem_of_mem l st sid (insertSideEffect c st sid eff)
        (insertSideEffect_self c st sid eff)
    · exact ih (insertSideEffect c st sid x) h

theorem foldl_insertSideEffect_mentions (l : List String) (st sid : String) :
    ∀ c : Conn E,
      (l.foldl (fun cn e => insertSideEffect cn st sid e) c).mentions =
        c.mentions := by
  induction l with
  | nil => intro c; rfl
  | cons x l ih =>
    intro c
    rw [List.foldl_cons, ih, insertSideEffect_mentions]

theorem upsertComment_mentions (c : Conn E) (row : CommentRow) :
    (upsertComment c row).mentions = c.mentions := by
  unfold upsertComment
  split_ifs <;> rfl

theorem upsertComment_side_effects (c : Conn E) (row : CommentRow) :
    (upsertComment c row).side_effects = c.side_effects := by
  unfold upsertComment
  split_ifs <;> rfl

end InsertLemmas

/-! ## The comment save path: C10 -/

section C10Lemmas

variable {E : Type}

theorem saveCommentStep_mentions_of_mem (post_id now : String)
    (acc : Conn E × Nat) (c : CommentIn) {pr : String × String}
    (h : pr ∈ acc.1.mentions) :
    pr ∈ (saveCommentStep post_id now acc c).1.mentions := by
  unfold saveCommentStep
  dsimp only
  rw [foldl_insertSideEffect_mentions]
  apply foldl_insertMention_mem_of_mem
  rw [upsertComment_mentions]
  exact h

theorem saveCommentStep_mentions_adds (post_id now : String)
    (acc : Conn E × Nat) (c : CommentIn) {ctype : String}
    (h : ctype ∈ find_mentions (c.body.getD "")) :
    (post_id, ctype) ∈ (saveCommentStep post_id now acc c).1.mentions := by
  unfold saveCommentStep
  dsimp only
  rw [foldl_insertSideEffect_mentions]
  exact foldl_insertMention_adds _ _ _ h

theorem saveCommentStep_mentions_mem (post_id now : String)
    (acc : Conn E × Nat) (c : CommentIn) {pr : String × String}
    (h : pr ∈ (saveCommentStep post_id now acc c).1.mentions) :
    pr ∈ acc.1.mentions ∨ pr.1 = post_id := by
  unfold saveCommentStep at h
  dsimp only at h
  rw [foldl_insertSideEffect_mentions] at h
  rcases foldl_insertMention_mem _ _ _ h with h2 | h2
  · rw [upsertComment_mentions] at h2
    exact Or.inl h2
  · exact Or.inr h2

theorem saveCommentStep_side_effects_of_mem (post_id now : String)
    (acc : Conn E × Nat) (c : CommentIn) {r : String × String × String}
    (h : r ∈ acc.1.side_effects) :
    r ∈ (saveCommentStep post_id now acc c).1.side_effects := by
  unfold saveCommentStep
  dsimp only
  apply foldl_insertSideEffect_mem_of_mem
  rw [foldl_insertMention_side_effects, upsertComment_side_effects]
  exact h

theorem saveCommentStep_side_effects_adds (post_id now : String)
    (acc : Conn E × Nat) (c : CommentIn) {eff : String}
    (h : eff ∈ find_side_effects (c.body.getD "")) :
    ("comment", c.id, eff) ∈ (saveCommentStep post_id now acc c).1.side_effects := by
  unfold saveCommentStep
  dsimp only
  exact foldl_insertSideEffect_adds _ _ _ _ h

theorem foldl_saveCommentStep_mentions_of_mem (post_id now : String)
    (cs : List CommentIn) :
    ∀ (acc : Conn E × Nat) {pr : String × String}, pr ∈ acc.1.mentions →
      pr ∈ (cs.foldl (saveCommentStep post_id now) acc).1.mentions := by
  induction cs with
  | nil => intro acc pr h; exact h
  | cons c cs ih =>
    intro acc pr h
    exact ih _ (saveCommentStep_mentions_of_mem post_id now acc c h)

theorem foldl_saveCommentStep_side_effects_of_mem (post_id now : String)
    (cs : List CommentIn) :
    ∀ (acc : Conn E × Nat) {r : String × String × String},
      r ∈ acc.1.side_effects →
      r ∈ (cs.foldl (saveCommentStep post_id now) acc).1.side_effects := by
  induction cs with
  | nil => intro acc r h; exact h
  | cons c cs ih =>
    intro acc r h
    exact ih _ (saveCommentStep_side_effects_of_mem post_id now acc c h)

theorem foldl_saveCommentStep_adds_mention (post_id now : String)
    (cs : List CommentIn) :
    ∀ (acc : Conn E × Nat), ∀ c ∈ cs, ∀ ctype ∈ find_mentions (c.body.getD ""),
      (post_id, ctype) ∈ (cs.foldl (saveCommentStep post_id now) acc).1.mentions := by
  induction cs with
  | nil => intro acc c hc; exact absurd hc (List.not_mem_nil c)
  | cons c0 cs ih =>
    intro acc c hc ctype hct
    rcases List.mem_cons.mp hc with rfl | hc2
    · exact foldl_saveCommentStep_mentions_of_mem post_id now cs _
        (saveCommentStep_mentions_adds post_id now acc c hct)
    · exact ih (saveCommentStep post_id now acc c0) c hc2 ctype hct

theorem foldl_saveCommentStep_adds_side_effect (post_id now : String)
    (cs : List CommentIn) :
    ∀ (acc : Conn E × Nat), ∀ c ∈ cs, ∀ eff ∈ find_side_effects (c.body.getD ""),
      ("comment", c.id, eff) ∈
        (cs.foldl (saveCommentStep post_id now) acc).1.side_effects := by
  induction cs with
  | nil => intro acc c hc; exact absurd hc (List.not_mem_nil c)
  | cons c0 cs ih =>
    intro acc c hc eff heff
    rcases List.mem_cons.mp hc with rfl | hc2
    · exact foldl_saveCommentStep_side_effects_of_mem post_id now cs _
        (saveCommentStep_side_effects_adds post_id now acc c heff)
    · exact ih (saveCommentStep post_id now acc c0) c hc2 eff heff

theorem foldl_saveCommentStep_mentions_mem (post_id now : String)
    (cs : List CommentIn) :
    ∀ (acc : Conn E × Nat) (pr : String × String),
      pr ∈ (cs.foldl (saveCommentStep post_id now) acc).1.mentions →
      pr ∈ acc.1.mentions ∨ pr.1 = post_id := by
  induction cs with
  | nil => intro acc pr h; exact Or.inl h
  | cons c cs ih =>
    intro acc pr h
    rcases ih _ pr h with h2 | h2
    · exact saveCommentStep_mentions_mem post_id now acc c h2
    · exact Or.inr h2

/-- C10: saving a batch of comments records every entity category matched
in a comment body as a Mention row keyed by the containing post's
identifier, records the comment's side-effect matches under the comment's
own identifier with source kind 'comment', and adds no mention row keyed
by anything other than that post — so a contraceptive mentioned only in a
comment makes the parent post count as mentioning it. -/
theorem C10_comment_mentions_keyed_by_post {E : Type} (conn : Conn E)
    (post_id : String) (cs : List CommentIn) (now : String) :
    (∀ c ∈ cs, ∀ ctype ∈ find_mentions (c.body.getD ""),
      (post_id, ctype) ∈ (save_comments_to_db conn post_id cs now).1.mentions) ∧
    (∀ c ∈ cs, ∀ eff ∈ find_side_effects (c.body.getD ""),
      ("comment", c.id, eff) ∈
        (save_comments_to_db conn post_id cs now).1.side_effects) ∧
    (∀ pr ∈ (save_comments_to_db conn post_id cs now).1.mentions,
      pr ∈ conn.mentions ∨ pr.1 = post_id) := by
  refine ⟨?_, ?_, ?_⟩
  · intro c hc ctype hct
    exact foldl_saveCommentStep_adds_mention post_id now cs (conn, 0) c hc ctype hct
  · intro c hc eff heff
    exact foldl_saveCommentStep_adds_side_effect post_id now cs (conn, 0) c hc eff heff
  · intro pr hpr
    exact foldl_saveCommentStep_mentions_mem post_id now cs (conn, 0) pr hpr

/-- Witness for C10: one comment on post "p1" whose body mentions the
Mirena and a cramping side effect; the mention lands keyed by "p1", the
side-effect row keyed by the comment id "c9". -/
theorem C10_comment_witness :
    ("p1", "Mirena") ∈
      (save_comments_to_db (emptyConn Int) "p1"
        [⟨"c9", some "mirena cramps", none, none, none⟩] "T2").1.mentions ∧
    ("comment", "c9", "Cramping") ∈
      (save_comments_to_db (emptyConn Int) "p1"
        [⟨"c9", some "mirena cramps", none, none, none⟩] "T2").1.side_effects := by
  have hm : "Mirena" ∈ find_mentions
      ((⟨"c9", some "mirena cramps", none, none, none⟩ : CommentIn).body.getD "") := by
    decide
  have he : "Cramping" ∈ find_side_effects
      ((⟨"c9", some "mirena cramps", none, none, none⟩ : CommentIn).body.getD "") := by
    decide
  refine ⟨?_, ?_⟩
  · exact (C10_comment_mentions_keyed_by_post (emptyConn Int) "p1"
      [⟨"c9", some "mirena cramps", none, none, none⟩] "T2").1
      _ (List.mem_singleton.mpr rfl) _ hm
  · exact (C10_comment_mentions_keyed_by_post (emptyConn Int) "p1"
      [⟨"c9", some "mirena cramps", none, none, none⟩] "T2").2.1
      _ (List.mem_singleton.mpr rfl) _ he

end C10Lemmas

/-! ## The post save path: C6 -/

section C6Lemmas

variable {E : Type}

theorem insertMention_posts (c : Conn E) (pid ctype : String) :
    (insertMention c pid ctype).posts = c.posts := by
  unfold insertMention
  split_ifs <;> rfl

theorem insertSideEffect_posts (c : Conn E) (st sid eff : String) :
    (insertSideEffect c st sid eff).posts = c.posts := by
  unfold insertSideEffect
  split_ifs <;> rfl

theorem foldl_insertMention_posts (l : List String) (pid : String) :
    ∀ c : Conn E,
      (l.foldl (fun cn ct => insertMention cn pid ct) c).posts = c.posts := by
  induction l with
  | nil => intro c; rfl
  | cons x l ih =>
    intro c
    rw [List.foldl_cons, ih, insertMention_posts]

theorem foldl_insertSideEffect_posts (l : List String) (st sid : String) :
    ∀ c : Conn E,
      (l.foldl (fun cn e => insertSideEffect cn st sid e) c).posts = c.posts := by
  induction l with
  | nil => intro c; rfl
  | cons x l ih =>
    intro c
    rw [List.foldl_cons, ih, insertSideEffect_posts]

/-- What the posts upsert does to the posts table alone. -/
theorem upsertPost_posts [Max E] (conn : Conn E) (row : PostRow E) :
    (upsertPost conn row).posts =
      if conn.posts.any fun p => p.id == row.id then
        conn.posts.map fun p =>
          if p.id == row.id then
            { p with score := row.score,
                     num_comments := row.num_comments,
                     sentiment := row.sentiment,
                     engagement_score := max p.engagement_score row.engagement_score,
                     sort_source := if row.sort_source == "hot" then "hot"
                                    else p.sort_source }
          else p
      else conn.posts ++ [row] := by
  unfold upsertPost
  split_ifs <;> rfl

/-- A one-post batch changes the posts table exactly as its upsert does
(the mention, side-effect and scrape-run inserts leave `posts` alone). -/
theorem save_single_posts [Max E] (engFn : Int → Int → E) (conn : Conn E) (p : Post)
    (mm : String → List String) (sub now : String) :
    (save_posts_to_db engFn conn [p] mm sub now).1.posts =
      (upsertPost conn (postRowOf engFn sub now p)).posts := by
  unfold save_posts_to_db
  simp only [List.foldl_cons, List.foldl_nil]
  show (savePostStep engFn mm sub now (conn, 0) p).1.posts = _
  unfold savePostStep
  dsimp only
  split_ifs <;> dsimp only <;>
    first
    | rfl
    | rw [foldl_insertSideEffect_posts, foldl_insertMention_posts]

end C6Lemmas

/-- C6: ingesting the same identifier twice, starting from a store without
it, leaves exactly one `posts` row for that identifier; its votes, reply
count and sentiment come from the second observation, and its engagement
score is the maximum of the two computed `compute_engagement` values —
and since the pair (p1, p2) is arbitrary, this holds for either order of
the two observations. -/
theorem C6_reingest_merge (db : Conn ℝ) (p1 p2 : Post)
    (mm1 mm2 : String → List String) (sub1 sub2 now1 now2 : String)
    (hid : p1.id = p2.id) (habs : ∀ r ∈ db.posts, r.id ≠ p1.id) :
    (((save_posts_to_db compute_engagement
        (save_posts_to_db compute_engagement db [p1] mm1 sub1 now1).1
        [p2] mm2 sub2 now2).1.posts.filter fun r => r.id == p1.id).length = 1) ∧
    (∀ r ∈ (save_posts_to_db compute_engagement
        (save_posts_to_db compute_engagement db [p1] mm1 sub1 now1).1
        [p2] mm2 sub2 now2).1.posts.filter fun r => r.id == p1.id,
      r.score = p2.score ∧ r.num_comments = p2.num_comments ∧
      r.sentiment = score_sentiment (p2.title ++ " " ++ p2.selftext) ∧
      r.engagement_score =
        max (compute_engagement p1.score p1.num_comments)
            (compute_engagement p2.score p2.num_comments)) := by
  set r1 := postRowOf compute_engagement sub1 now1 p1 with hr1
  set r2 := postRowOf compute_engagement sub2 now2 p2 with hr2
  have hr1id : r1.id = p1.id := rfl
  have hr2id : r2.id = p2.id := rfl
  have hany1 : (db.posts.any fun p => p.id == r1.id) = false := by
    rw [List.any_eq_false]
    intro r hr
    simpa [hr1id] using habs r hr
  have h1 : (save_posts_to_db compute_engagement db [p1] mm1 sub1 now1).1.posts =
      db.posts ++ [r1] := by
    rw [save_single_posts, upsertPost_posts, hany1]
    simp
  have hany2 : ((db.posts ++ [r1]).any fun p => p.id == r2.id) = true := by
    rw [List.any_eq_true]
    refine ⟨r1, by simp, ?_⟩
    simp [hr1id, hr2id, hid]
  have h2 : (save_posts_to_db compute_engagement
      (save_posts_to_db compute_engagement db [p1] mm1 sub1 now1).1
      [p2] mm2 sub2 now2).1.posts =
      (db.posts ++ [r1]).map fun p =>
        if p.id == r2.id then
          { p with score := r2.score,
                   num_comments := r2.num_comments,
                   sentiment := r2.sentiment,
                   engagement_score := max p.engagement_score r2.engagement_score,
                   sort_source := if r2.sort_source == "hot" then "hot"
                                  else p.sort_source }
        else p := by
    rw [save_single_posts, upsertPost_posts, h1, hany2]
    simp
  rw [h2, List.map_append, List.filter_append]
  have hmapid : (db.posts.map fun p =>
      if p.id == r2.id then
        { p with score := r2.score,
                 num_comments := r2.num_comments,
                 sentiment := r2.sentiment,
                 engagement_score := max p.engagement_score r2.engagement_score,
                 sort_source := if r2.sort_source == "hot" then "hot"
                                else p.sort_source }
      else p) = db.posts := by
    have hcongr : ∀ r ∈ db.posts,
        (if (r.id == r2.id) = true then
          { r with score := r2.score,
                   num_comments := r2.num_comments,
                   sentiment := r2.sentiment,
                   engagement_score := max r.engagement_score r2.engagement_score,
                   sort_source := if r2.sort_source == "hot" then "hot"
                                  else r.sort_source }
        else r) = id r := by
      intro r hr
      have hne : r.id ≠ p1.id := habs r hr
      rw [if_neg, id]
      simp [hr2id, ← hid, hne]
    rw [List.map_congr_left hcongr, List.map_id]
  rw [hmapid]
  have hfilter1 : (db.posts.filter fun r => r.id == p1.id) = [] := by
    rw [List.filter_eq_nil_iff]
    intro r hr
    simpa using habs r hr
  have hupd : ((if r1.id == r2.id then
      { r1 with score := r2.score,
                num_comments := r2.num_comments,
                sentiment := r2.sentiment,
                engagement_score := max r1.engagement_score r2.engagement_score,
                sort_source := if r2.sort_source == "hot" then "hot"
                               else r1.sort_source }
      else r1)) =
      { r1 with score := r2.score,
                num_comments := r2.num_comments,
                sentiment := r2.sentiment,
                engagement_score := max r1.engagement_score r2.engagement_score,
                sort_source := if r2.sort_source == "hot" then "hot"
                               else r1.sort_source } := by
    rw [if_pos]
    simp [hr1id, hr2id, hid]
  rw [List.map_cons, List.map_nil, hupd, hfilter1, List.nil_append]
  have hkeep : (({ r1 with
                    score := r2.score,
                    num_comments := r2.num_comments,
                    sentiment := r2.sentiment,
                    engagement_score := max r1.engagement_score r2.engagement_score,
                    sort_source := if r2.sort_source == "hot" then "hot"
                                   else r1.sort_source } : PostRow ℝ).id == p1.id) = true := by
    simp [hr1id]
  rw [List.filter_cons, hkeep]
  refine ⟨rfl, ?_⟩
  intro r hr
  simp only [List.filter_nil, if_true, List.mem_singleton] at hr
  subst hr
  exact ⟨rfl, rfl, rfl, rfl⟩

/-! ## The generic-IUD lookahead: C2 -/

/-- A category is reported by `find_mentions` exactly when some table entry
carries its name and its pattern matches the lowercased text. -/
theorem mem_find_mentions (s name : String) :
    name ∈ find_mentions s ↔
      ∃ e ∈ CONTRACEPTIVES, patSearch e.2 (lowerData s) = true ∧ e.1 = name := by
  unfold find_mentions
  constructor
  · intro h
    obtain ⟨e, he, hname⟩ := List.mem_map.mp h
    obtain ⟨heC, hepat⟩ := List.mem_filter.mp he
    exact ⟨e, heC, hepat, hname⟩
  · rintro ⟨e, heC, hepat, hname⟩
    exact List.mem_map.mpr ⟨e, List.mem_filter.mpr ⟨heC, hepat⟩, hname⟩

/-- The matched span of the bare-`iud` alternative has length three. -/
theorem matchPieces_iud (t : List Char) (i : Nat) :
    matchPieces [Piece.lit "iud".data] t i =
      if litAt "iud".data t i then some (i + 3) else none := by
  unfold matchPieces
  rfl

/-- C2 (amended): the generic "IUD (general)" category is suppressed only
by its own lookahead — an exact occurrence of one of the five brand-name
literals at or after the end of a matched `iud` token with no newline in
between — or by the absence of both alternatives.  Concretely: if after
every word-bounded occurrence of `iud` one of the literals mirena,
kyleena, paragard, liletta, skyla occurs later on the same line, and the
`hormonal iud` alternative matches nowhere, then "IUD (general)" is not
reported.  (A specific-brand match alone does not preclude the generic
category: see the counterexample "mirena iud".) -/
theorem C2_amended_generic_iud_suppression (s : String)
    (h1 : ∀ i < (lowerData s).length + 1,
      (wordBoundaryAt (lowerData s) i && litAt "iud".data (lowerData s) i &&
        wordBoundaryAt (lowerData s) (i + 3)) = true →
      ∃ j < (lowerData s).length + 1, i + 3 ≤ j ∧
        lineClear (lowerData s) (i + 3) j = true ∧
        (iudBrandLits.any fun brand => litAt brand (lowerData s) j) = true)
    (h2 : ∀ i < (lowerData s).length + 1,
      altMatchAt iudHormonalAlt (lowerData s) i = false) :
    patSearch [iudBareAlt, iudHormonalAlt] (lowerData s) = false ∧
    "IUD (general)" ∉ find_mentions s := by
  set t := lowerData s with ht
  have hbare : ∀ i < t.length + 1, altMatchAt iudBareAlt t i = false := by
    intro i hi
    by_contra hcon
    rw [Bool.not_eq_false] at hcon
    unfold altMatchAt at hcon
    rw [Bool.and_eq_true] at hcon
    obtain ⟨hb1, hrest⟩ := hcon
    rw [show iudBareAlt.pieces = [Piece.lit "iud".data] from rfl,
      matchPieces_iud] at hrest
    by_cases hlit : litAt "iud".data t i
    · rw [if_pos hlit] at hrest
      rw [show iudBareAlt.rbound = true from rfl,
        show iudBareAlt.nla = some (Nla.seekLine iudBrandLits) from rfl] at hrest
      simp only [Bool.not_true, Bool.true_and] at hrest
      rw [Bool.and_eq_true] at hrest
      obtain ⟨hb2, hnla⟩ := hrest
      obtain ⟨j, hj, hij, hclear, hbrand⟩ := h1 i hi
        (by simp only [hb1, hlit, Bool.true_and]; simpa using hb2)
      have : nlaMatch (Nla.seekLine iudBrandLits) t (i + 3) = true := by
        unfold nlaMatch
        rw [List.any_eq_true]
        refine ⟨j, List.mem_range.mpr hj, ?_⟩
        rw [hclear, hbrand]
        simp [hij]
      rw [this] at hnla
      simp at hnla
    · rw [if_neg hlit] at hrest
      simp at hrest
  have hps : patSearch [iudBareAlt, iudHormonalAlt] t = false := by
    rw [patSearch, List.any_eq_false]
    intro i hi
    rw [List.mem_range] at hi
    rw [Bool.not_eq_true, List.any_eq_false]
    intro alt halt
    rcases List.mem_cons.mp halt with rfl | halt2
    · rw [Bool.not_eq_true]
      exact hbare i hi
    · rw [List.mem_singleton] at halt2
      subst halt2
      rw [Bool.not_eq_true]
      exact h2 i hi
  refine ⟨hps, ?_⟩
  intro hmem
  obtain ⟨e, heC, hepat, hname⟩ := (mem_find_mentions s "IUD (general)").mp hmem
  have huniq : ∀ e ∈ CONTRACEPTIVES,
      e.1 = "IUD (general)" → e.2 = [iudBareAlt, iudHormonalAlt] := by decide
  rw [huniq e heC hname] at hepat
  rw [← ht] at hepat
  rw [hepat] at hps
  exact absurd hps (by simp)

/-- Witness for C2 (amended) at the text "iud mirena": the brand literal
stands after the `iud` token on the same line and `hormonal iud` does not
match, so the generic category is suppressed — as the full pattern search
confirms. -/
theorem C2_amended_witness :
    patSearch [iudBareAlt, iudHormonalAlt] (lowerData "iud mirena") = false ∧
    "IUD (general)" ∉ find_mentions "iud mirena" :=
  C2_amended_generic_iud_suppression "iud mirena" (by decide) (by decide)

/-! ## Query-layer lemmas: C3 -/

theorem mem_sortCntDesc {α : Type} (l : List (α × Nat)) (x : α × Nat) :
    x ∈ sortCntDesc l ↔ x ∈ l := by
  unfold sortCntDesc
  exact (List.perm_insertionSort _ l).mem_iff

theorem mem_groupCounts {α : Type} [DecidableEq α] (rows : List α) (k : α) (n : ℕ) :
    (k, n) ∈ groupCounts rows ↔ k ∈ rows ∧ n = rows.count k := by
  unfold groupCounts
  constructor
  · intro h
    obtain ⟨x, hx, heq⟩ := List.mem_map.mp h
    obtain ⟨rfl, rfl⟩ := Prod.mk.injEq .. |>.mp heq
    exact ⟨List.mem_dedup.mp hx, rfl⟩
  · rintro ⟨hk, rfl⟩
    exact List.mem_map.mpr ⟨k, List.mem_dedup.mpr hk, rfl⟩

theorem groupCounts_mem_of_mem {α : Type} [DecidableEq α] (rows : List α)
    (k : α) (hk : k ∈ rows) :
    ∃ n, 0 < n ∧ (k, n) ∈ groupCounts rows := by
  refine ⟨_, ?_, (mem_groupCounts rows k _).mpr ⟨hk, rfl⟩⟩
  exact List.count_pos_iff.mpr hk

theorem filter_key_length {E : Type} (posts : List (PostRow E)) (x : String)
    (q : PostRow E → Bool) (hq : ∀ p, q p = true → p.id = x)
    (hn : (posts.map fun p => p.id).Nodup) :
    (posts.filter q).length = if posts.any q then 1 else 0 := by
  induction posts with
  | nil => rfl
  | cons p ps ih =>
    rw [List.map_cons, List.nodup_cons] at hn
    obtain ⟨hpid, hnps⟩ := hn
    rw [List.filter_cons, List.any_cons]
    by_cases hc : q p = true
    · rw [hc]
      simp only [if_true, Bool.true_or, List.length_cons]
      have hnil : ps.filter q = [] := by
        rw [List.filter_eq_nil_iff]
        intro r hr hcr
        exact hpid (by
          rw [hq p hc, ← hq r hcr]
          exact List.mem_map.mpr ⟨r, hr, rfl⟩)
      rw [hnil]
      rfl
    · rw [Bool.not_eq_true] at hc
      rw [hc]
      simp only [Bool.false_eq_true, if_false, Bool.false_or]
      exact ih hnps

theorem count_map_const {α β : Type} [DecidableEq β] (l : List α) (v c : β) :
    ((l.map fun _ => v).count c) = if v == c then l.length else 0 := by
  induction l with
  | nil => simp
  | cons a l ih =>
    rw [List.map_cons, List.count_cons, ih]
    by_cases h : (v == c) = true
    · simp [h]
    · rw [Bool.not_eq_true] at h
      simp [h]

theorem mention_rows_count {E : Type} (mentions : List (String × String))
    (posts : List (PostRow E)) (q : String → PostRow E → Bool) (c : String)
    (hq : ∀ y p, q y p = true → p.id = y)
    (hn : (posts.map fun p => p.id).Nodup) :
    ((mentions.flatMap fun m =>
        (posts.filter (q m.1)).map fun _ => m.2).count c) =
      mentions.countP fun m => m.2 == c && posts.any (q m.1) := by
  induction mentions with
  | nil => rfl
  | cons m ms ih =>
    rw [List.flatMap_cons, List.count_append, ih, List.countP_cons,
      count_map_const, filter_key_length posts m.1 (q m.1) (hq m.1) hn]
    by_cases h1 : (m.2 == c) = true
    · by_cases h2 : posts.any (q m.1) = true
      · simp [h1, h2]
        omega
      · rw [Bool.not_eq_true] at h2
        simp [h1, h2]
    · rw [Bool.not_eq_true] at h1
      simp [h1]

theorem countP_flatMap {α β : Type} (l : List α) (f : α → List β) (p : β → Bool) :
    (l.flatMap f).countP p = (l.map fun a => (f a).countP p).sum := by
  induction l with
  | nil => rfl
  | cons a l ih =>
    rw [List.flatMap_cons, List.countP_append, List.map_cons, List.sum_cons, ih]

theorem two_mem_map_sum {α : Type} (l : List α) (f : α → ℕ) (x y : α)
    (hx : x ∈ l) (hy : y ∈ l) (hxy : x ≠ y) :
    f x + f y ≤ (l.map f).sum := by
  obtain ⟨s, t, rfl⟩ := List.append_of_mem hx
  rw [List.map_append, List.map_cons, List.sum_append, List.sum_cons]
  rcases List.mem_append.mp hy with hys | hyt
  · have : f y ≤ (s.map f).sum :=
      List.single_le_sum (fun _ _ => Nat.zero_le _) _ (List.mem_map.mpr ⟨y, hys, rfl⟩)
    omega
  · rcases List.mem_cons.mp hyt with rfl | hyt2
    · exact absurd rfl hxy
    · have : f y ≤ (t.map f).sum :=
        List.single_le_sum (fun _ _ => Nat.zero_le _) _ (List.mem_map.mpr ⟨y, hyt2, rfl⟩)
      omega

/-- The category-counts query under a two-sided window: a pair (c, n) is
returned exactly when n is positive and equals the number of mention rows
for c whose post exists and has `a ≤ created_utc ∧ created_utc ≤ b` —
both bounds inclusive. -/
theorem query_mention_counts_closed {E : Type} (conn : Conn E) (a b : Int)
    (c : String) (n : ℕ) (hn : (conn.posts.map fun p => p.id).Nodup) :
    (c, n) ∈ query_mention_counts conn (some a) (some b) none ↔
      0 < (conn.mentions.countP fun m => m.2 == c &&
            conn.posts.any fun p => p.id == m.1 &&
              decide (a ≤ p.created_utc) && decide (p.created_utc ≤ b)) ∧
      n = conn.mentions.countP fun m => m.2 == c &&
            conn.posts.any fun p => p.id == m.1 &&
              decide (a ≤ p.created_utc) && decide (p.created_utc ≤ b) := by
  have hq : ∀ (y : String) (p : PostRow E),
      (p.id == y && decide (a ≤ p.created_utc) && decide (p.created_utc ≤ b)) = true →
      p.id = y := by
    intro y p h
    simp only [Bool.and_eq_true, beq_iff_eq] at h
    exact h.1.1
  have hcount := mention_rows_count conn.mentions conn.posts
    (fun y p => p.id == y && decide (a ≤ p.created_utc) && decide (p.created_utc ≤ b))
    c hq hn
  unfold query_mention_counts
  simp only [Option.isSome_some, Option.isSome_none, Bool.true_or, if_true,
    dateOkFrom, dateOkTo, subOk, Bool.and_true]
  rw [mem_sortCntDesc, mem_groupCounts]
  rw [show (conn.mentions.flatMap fun m =>
      (conn.posts.filter fun p => p.id == m.1 &&
        decide (a ≤ p.created_utc) && decide (p.created_utc ≤ b)).map
        fun _ => m.2).count c =
      conn.mentions.countP (fun m => m.2 == c &&
        conn.posts.any fun p => p.id == m.1 &&
          decide (a ≤ p.created_utc) && decide (p.created_utc ≤ b)) from hcount]
  rw [← List.count_pos_iff (a := c)]
  rw [show (conn.mentions.flatMap fun m =>
      (conn.posts.filter fun p => p.id == m.1 &&
        decide (a ≤ p.created_utc) && decide (p.created_utc ≤ b)).map
        fun _ => m.2).count c =
      conn.mentions.countP (fun m => m.2 == c &&
        conn.posts.any fun p => p.id == m.1 &&
          decide (a ≤ p.created_utc) && decide (p.created_utc ≤ b)) from hcount]

/-- The daily-series query under a two-sided window counts an item whose
timestamp satisfies `a ≤ created_utc ∧ created_utc ≤ b` — in particular
one sitting exactly on either bound. -/
theorem query_daily_counts_closed {E : Type} (conn : Conn E) (a b : Int)
    (m : String × String) (p : PostRow E)
    (hm : m ∈ conn.mentions) (hp : p ∈ conn.posts) (hid : p.id = m.1)
    (h0 : 0 < p.created_utc) (ha : a ≤ p.created_utc) (hb : p.created_utc ≤ b) :
    ∃ n, 0 < n ∧
      ((dayOf p.created_utc, m.2), n) ∈
        query_daily_counts conn (some a) (some b) none := by
  unfold query_daily_counts
  set rows := conn.mentions.flatMap fun m =>
    (conn.posts.filter fun p =>
        p.id == m.1 && decide (0 < p.created_utc) &&
        dateOkFrom (some a) p.created_utc && dateOkTo (some b) p.created_utc &&
        subOk none p.subreddit).map
      fun p => (dayOf p.created_utc, m.2) with hrows
  have hkey : (dayOf p.created_utc, m.2) ∈ rows := by
    rw [hrows]
    refine List.mem_flatMap.mpr ⟨m, hm, List.mem_map.mpr ⟨p, List.mem_filter.mpr ⟨hp, ?_⟩, rfl⟩⟩
    simp [hid, dateOkFrom, dateOkTo, subOk, h0, ha, hb]
  obtain ⟨n, hpos, hmem⟩ := groupCounts_mem_of_mem rows _ hkey
  refine ⟨n, hpos, ?_⟩
  rw [(List.perm_insertionSort _ _).mem_iff]
  exact hmem

/-- The sentiment-by-category query under a two-sided window: two distinct
mention rows for the same category, each with a sentiment-bearing post
inside the closed window (bounds included), put the category into the
result with a qualifying count of at least two. -/
theorem query_sentiment_by_type_closed {E : Type} (conn : Conn E) (a b : Int)
    (c : String) (m1 m2 : String × String) (p1 p2 : PostRow E)
    (hm1 : m1 ∈ conn.mentions) (hm2 : m2 ∈ conn.mentions) (hne : m1 ≠ m2)
    (hc1 : m1.2 = c) (hc2 : m2.2 = c)
    (hp1 : p1 ∈ conn.posts) (hp2 : p2 ∈ conn.posts)
    (hid1 : p1.id = m1.1) (hid2 : p2.id = m2.1)
    (hs1 : p1.sentiment.isSome) (hs2 : p2.sentiment.isSome)
    (ha1 : a ≤ p1.created_utc) (hb1 : p1.created_utc ≤ b)
    (ha2 : a ≤ p2.created_utc) (hb2 : p2.created_utc ≤ b) :
    ∃ q n, 2 ≤ n ∧
      (c, q, n) ∈ query_sentiment_by_type conn (some a) (some b) none := by
  unfold query_sentiment_by_type
  set rows := conn.mentions.flatMap fun m =>
    (conn.posts.filter fun p =>
        p.id == m.1 && p.sentiment.isSome &&
        dateOkFrom (some a) p.created_utc && dateOkTo (some b) p.created_utc &&
        subOk none p.subreddit).map
      fun p => (m.2, p.sentiment.getD 0) with hrows
  have hrow1 : (m1.2, p1.sentiment.getD 0) ∈ rows := by
    rw [hrows]
    refine List.mem_flatMap.mpr ⟨m1, hm1, List.mem_map.mpr ⟨p1, List.mem_filter.mpr ⟨hp1, ?_⟩, rfl⟩⟩
    simp [hid1, dateOkFrom, dateOkTo, subOk, hs1, ha1, hb1]
  have hcmem : c ∈ rows.map fun r => r.1 := by
    refine List.mem_map.mpr ⟨(m1.2, p1.sentiment.getD 0), hrow1, hc1⟩
  have hper : ∀ (m : String × String) (p : PostRow E), m ∈ conn.mentions →
      p ∈ conn.posts → p.id = m.1 → p.sentiment.isSome →
      a ≤ p.created_utc → p.created_utc ≤ b → m.2 = c →
      0 < ((conn.posts.filter fun r =>
          r.id == m.1 && r.sentiment.isSome &&
          dateOkFrom (some a) r.created_utc && dateOkTo (some b) r.created_utc &&
          subOk none r.subreddit).map
        fun r => (m.2, r.sentiment.getD 0)).countP fun r => r.1 == c := by
    intro m p _ hp hid hs ha hb hcm
    refine List.countP_pos_iff.mpr ⟨(m.2, p.sentiment.getD 0), ?_, by simp [hcm]⟩
    refine List.mem_map.mpr ⟨p, List.mem_filter.mpr ⟨hp, ?_⟩, rfl⟩
    simp [hid, dateOkFrom, dateOkTo, subOk, hs, ha, hb]
  have hcnt2 : 2 ≤ rows.countP fun r => r.1 == c := by
    rw [hrows]
    simp only [countP_flatMap]
    have h1 := hper m1 p1 hm1 hp1 hid1 hs1 ha1 hb1 hc1
    have h2 := hper m2 p2 hm2 hp2 hid2 hs2 ha2 hb2 hc2
    have hsum := two_mem_map_sum conn.mentions
      (fun m => ((conn.posts.filter fun r =>
          r.id == m.1 && r.sentiment.isSome &&
          dateOkFrom (some a) r.created_utc && dateOkTo (some b) r.created_utc &&
          subOk none r.subreddit).map
        fun r => (m.2, r.sentiment.getD 0)).countP fun r => r.1 == c)
      m1 m2 hm1 hm2 hne
    have h12 : 1 + 1 ≤
        (((conn.posts.filter fun r =>
            r.id == m1.1 && r.sentiment.isSome &&
            dateOkFrom (some a) r.created_utc && dateOkTo (some b) r.created_utc &&
            subOk none r.subreddit).map
          fun r => (m1.2, r.sentiment.getD 0)).countP fun r => r.1 == c) +
        (((conn.posts.filter fun r =>
            r.id == m2.1 && r.sentiment.isSome &&
            dateOkFrom (some a) r.created_utc && dateOkTo (some b) r.created_utc &&
            subOk none r.subreddit).map
          fun r => (m2.2, r.sentiment.getD 0)).countP fun r => r.1 == c) :=
      Nat.add_le_add h1 h2
    exact le_trans h12 hsum
  have hlen : ((rows.filter fun r => r.1 == c).map fun r => r.2).length =
      rows.countP fun r => r.1 == c := by
    rw [List.length_map, ← List.countP_eq_length_filter]
  refine ⟨round3 ((((rows.filter fun r => r.1 == c).map fun r => r.2).sum) /
      ((((rows.filter fun r => r.1 == c).map fun r => r.2).length : ℚ))),
    ((rows.filter fun r => r.1 == c).map fun r => r.2).length, ?_, ?_⟩
  · rw [hlen]
    exact hcnt2
  · rw [(List.perm_insertionSort _ _).mem_iff, List.mem_filter]
    constructor
    · refine List.mem_map.mpr ⟨c, List.mem_dedup.mpr hcmem, rfl⟩
    · simp only [hlen]
      simpa using hcnt2

/-- The side-effect-counts query under a two-sided window: a post-sourced
side-effect row whose post's timestamp satisfies
`a ≤ created_utc ∧ created_utc ≤ b` (bounds included) is counted. -/
theorem query_side_effect_counts_closed {E : Type} (conn : Conn E) (a b : Int)
    (se : String × String × String) (p : PostRow E)
    (hse : se ∈ conn.side_effects) (hty : se.1 = "post")
    (hp : p ∈ conn.posts) (hid : p.id = se.2.1)
    (ha : a ≤ p.created_utc) (hb : p.created_utc ≤ b) :
    ∃ n, 0 < n ∧
      (se.2.2, n) ∈ query_side_effect_counts conn (some a) (some b) none none := by
  have hqual : seQualifies conn (some a) (some b) none none se = true := by
    unfold seQualifies
    rw [List.any_eq_true]
    have hps : (if se.1 == "post" then conn.posts.filter fun r => r.id == se.2.1
        else []) = conn.posts.filter fun r => r.id == se.2.1 := by
      rw [if_pos]
      simp [hty]
    have hpmem : p ∈ conn.posts.filter fun r => r.id == se.2.1 :=
      List.mem_filter.mpr ⟨hp, by simp [hid]⟩
    have hnonempty : ((conn.posts.filter fun r => r.id == se.2.1).isEmpty) = false := by
      rw [List.isEmpty_eq_false]
      exact List.ne_nil_of_mem hpmem
    rw [hps]
    refine ⟨some p, ?_, ?_⟩
    · rw [if_neg]
      · exact List.mem_map.mpr ⟨p, hpmem, rfl⟩
      · simp [hnonempty]
    · rw [List.any_eq_true]
      refine ⟨none, ?_, ?_⟩
      · have hcs : (if se.1 == "comment" then conn.comments.filter fun r => r.id == se.2.1
            else []) = [] := by
          rw [if_neg]
          simp [hty]
        rw [hcs]
        simp
      · simp [Option.orElse, ha, hb]
  unfold query_side_effect_counts
  simp only [Option.isSome_some, Option.isSome_none, Bool.true_or, Bool.or_true, if_true]
  set qual := conn.side_effects.filter (seQualifies conn (some a) (some b) none none)
    with hqualdef
  have hseq : se ∈ qual := by
    rw [hqualdef]
    exact List.mem_filter.mpr ⟨hse, hqual⟩
  have hemem : se.2.2 ∈ (qual.map fun r => r.2.2) :=
    List.mem_map.mpr ⟨se, hseq, rfl⟩
  refine ⟨((qual.filter fun r => r.2.2 == se.2.2).map fun r => r.2.1).dedup.length,
    ?_, ?_⟩
  · have hin : se ∈ qual.filter fun r => r.2.2 == se.2.2 :=
      List.mem_filter.mpr ⟨hseq, by simp⟩
    have hdm : se.2.1 ∈
        ((qual.filter fun r => r.2.2 == se.2.2).map fun r => r.2.1).dedup :=
      List.mem_dedup.mpr (List.mem_map.mpr ⟨se, hin, rfl⟩)
    exact List.length_pos_of_mem hdm
  · rw [mem_sortCntDesc]
    exact List.mem_map.mpr ⟨se.2.2, List.mem_dedup.mpr hemem, rfl⟩

/-- Witness for C6: two observations of the id "x" ingested into an empty
store in sequence leave exactly one row for "x". -/
theorem C6_reingest_merge_witness :
    (((save_posts_to_db compute_engagement
        (save_posts_to_db compute_engagement (emptyConn ℝ)
          [⟨"x", "", "", 5, 1, 2, "", none, none, none⟩] (fun _ => []) "s" "T1").1
        [⟨"x", "", "", 5, 3, 4, "", none, some "hot", none⟩]
        (fun _ => []) "s" "T2").1.posts.filter fun r => r.id == "x").length = 1) :=
  (C6_reingest_merge (emptyConn ℝ)
    ⟨"x", "", "", 5, 1, 2, "", none, none, none⟩
    ⟨"x", "", "", 5, 3, 4, "", none, some "hot", none⟩
    (fun _ => []) (fun _ => []) "s" "s" "T1" "T2" rfl
    (by intro r hr; exact absurd hr (List.not_mem_nil r))).1

/-- C3 (amended): every aggregation query applies its optional time window as
a closed interval [start, end]: an item whose creation timestamp equals the
end bound is included, as is one equal to the start bound. Concretely: the
category-count query counts exactly the mentions whose post timestamp lies in
[a, b]; and a mention (resp. side-effect tag) whose post timestamp lies in
[a, b] — including timestamps equal to either bound — contributes a positive
daily count, a count of at least two to the sentiment aggregate when a second
qualifying mention of the same category exists, and a positive side-effect
count. -/
theorem C3_amended_closed_window :
    (∀ (E : Type) (conn : Conn E) (a b : Int) (c : String) (n : ℕ),
        (conn.posts.map fun p => p.id).Nodup →
        ((c, n) ∈ query_mention_counts conn (some a) (some b) none ↔
          0 < (conn.mentions.countP fun m => m.2 == c &&
                conn.posts.any fun p => p.id == m.1 &&
                  decide (a ≤ p.created_utc) && decide (p.created_utc ≤ b)) ∧
          n = conn.mentions.countP fun m => m.2 == c &&
                conn.posts.any fun p => p.id == m.1 &&
                  decide (a ≤ p.created_utc) && decide (p.created_utc ≤ b))) ∧
    (∀ (E : Type) (conn : Conn E) (a b : Int) (m : String × String)
        (p : PostRow E),
        m ∈ conn.mentions → p ∈ conn.posts → p.id = m.1 →
        0 < p.created_utc → a ≤ p.created_utc → p.created_utc ≤ b →
        ∃ n, 0 < n ∧
          ((dayOf p.created_utc, m.2), n) ∈
            query_daily_counts conn (some a) (some b) none) ∧
    (∀ (E : Type) (conn : Conn E) (a b : Int) (c : String)
        (m1 m2 : String × String) (p1 p2 : PostRow E),
        m1 ∈ conn.mentions → m2 ∈ conn.mentions → m1 ≠ m2 →
        m1.2 = c → m2.2 = c →
        p1 ∈ conn.posts → p2 ∈ conn.posts →
        p1.id = m1.1 → p2.id = m2.1 →
        p1.sentiment.isSome → p2.sentiment.isSome →
        a ≤ p1.created_utc → p1.created_utc ≤ b →
        a ≤ p2.created_utc → p2.created_utc ≤ b →
        ∃ q n, 2 ≤ n ∧
          (c, q, n) ∈ query_sentiment_by_type conn (some a) (some b) none) ∧
    (∀ (E : Type) (conn : Conn E) (a b : Int)
        (se : String × String × String) (p : PostRow E),
        se ∈ conn.side_effects → se.1 = "post" →
        p ∈ conn.posts → p.id = se.2.1 →
        a ≤ p.created_utc → p.created_utc ≤ b →
        ∃ n, 0 < n ∧
          (se.2.2, n) ∈
            query_side_effect_counts conn (some a) (some b) none none) :=
  ⟨fun _ conn a b c n hn => query_mention_counts_closed conn a b c n hn,
   fun _ conn a b m p hm hp hid h0 ha hb =>
     query_daily_counts_closed conn a b m p hm hp hid h0 ha hb,
   fun _ conn a b c m1 m2 p1 p2 hm1 hm2 hne hc1 hc2 hp1 hp2 hid1 hid2
       hs1 hs2 ha1 hb1 ha2 hb2 =>
     query_sentiment_by_type_closed conn a b c m1 m2 p1 p2 hm1 hm2 hne hc1 hc2
       hp1 hp2 hid1 hid2 hs1 hs2 ha1 hb1 ha2 hb2,
   fun _ conn a b se p hse hty hp hid ha hb =>
     query_side_effect_counts_closed conn a b se p hse hty hp hid ha hb⟩

end BcTracker
